import Mathlib

/-!
# Wi-Fi driver lifecycle and supplicant control channel (`wifi/wifi.c`)

A shallow embedding of the functions of `wifi/wifi.c`.

* Byte buffers are `List Nat` (one element per `char`), C strings are the bytes
  before the first NUL of a buffer.
* Everything the C code obtains from outside (system calls, the property store,
  the `wpa_ctrl` transport) is an explicit argument holding the outcome of the
  call; everything it does to the outside is recorded in a list of `Event`s.
* Undefined behaviour of the C code is the result `none`.
-/

namespace Wifi

/-! ## Bytes, C strings and the libc helpers used by the file -/

/-- Bytes of an ASCII literal, without its terminating NUL. -/
def bytes (s : String) : List Nat := s.toList.map Char.toNat

/-- Conversion of a `size_t` value to the `int` a function returns
(two's complement, 32 bits). -/
def toInt32 (n : Nat) : Int := ((n + 2 ^ 31) % 2 ^ 32 : Nat) - 2 ^ 31

/-- C `strlen`: number of bytes before the first NUL; `none` when the scan
leaves the buffer without meeting a NUL. -/
def strlen : List Nat → Option Nat
  | [] => none
  | b :: bs => if b = 0 then some 0 else (strlen bs).map (· + 1)

/-- The C string held by a buffer: the bytes before its first NUL. -/
def cstr (buf : List Nat) : List Nat := buf.takeWhile (· ≠ 0)

/-- C `strchr(buf, c)` for `c ≠ 0`: offset of the first `c` of the C string in
`buf`, `none` for a NULL result. -/
def strchr (c : Nat) : List Nat → Option Nat
  | [] => none
  | b :: bs => if b = c then some 0 else if b = 0 then none else (strchr c bs).map (· + 1)

/-- C `strncpy(buf, src, n)` for a literal `src` (given without its NUL): the
first `n` bytes of `buf` become `src`, cut at `n` bytes or padded with NULs up
to `n` bytes. -/
def strncpy (buf src : List Nat) (n : Nat) : List Nat :=
  src.take n ++ List.replicate (n - src.length) 0 ++ buf.drop n

/-- C `memmove(buf + dst, buf + src, n)` inside one buffer. -/
def memmove (buf : List Nat) (dst src n : Nat) : List Nat :=
  buf.take dst ++ (buf.drop src).take n ++ buf.drop (dst + n)

/-- C `memset(buf + dst, c, n)`. -/
def memset (buf : List Nat) (dst c n : Nat) : List Nat :=
  buf.take dst ++ List.replicate n c ++ buf.drop (dst + n)

/-- C `memcpy(buf + dst, src, strlen(src))` from a separate object `src`. -/
def memcpy (buf : List Nat) (dst : Nat) (src : List Nat) : List Nat :=
  buf.take dst ++ src ++ buf.drop (dst + src.length)

/-- Truth of `strncmp(a, b, n) == 0`; a list that ends counts as a NUL. -/
def strncmp_eq : Nat → List Nat → List Nat → Bool
  | 0, _, _ => true
  | n + 1, a, b =>
    if a.headD 0 ≠ b.headD 0 then false
    else if a.headD 0 = 0 then true
    else strncmp_eq n a.tail b.tail

/-- Android `property_get(key, value, default_value)`: `stored` is the value of
the key in the property store (`""` when unset); the result is the returned
length and the string left in `value`. -/
def property_get (stored : String) (default_value : Option String) : Nat × String :=
  if 0 < stored.length then (stored.length, stored)
  else match default_value with
    | some d => (d.length, d)
    | none => (0, "")

/-! ## Constants of the file -/

def DRIVER_PROP_NAME : String := "wlan.driver.status"
def DRIVER_NAME_PROP : String := "wlan.modname"
def SUPPLICANT_NAME : String := "wpa_supplicant"
def SUPP_PROP_NAME : String := "init.svc.wpa_supplicant"
def WIFI_DRIVER_MODULE_NAME : String := "wlan"
def WIFI_TEST_INTERFACE : String := "sta"
def PROPERTY_VALUE_MAX : Nat := 92
def EAGAIN : Nat := 11

/-- What the code does to its environment, in program order. -/
inductive Event
  | delete_module (ret : Int) (errno : Nat)
  | usleep (us : Nat)
  | is_wifi_driver_loaded (loaded : Bool)
  | property_get (key : String) (value : String)
  | property_set (key : String) (value : String)
  | get_driver_info
  | sched_yield
  | wifi_unload_driver
  | wpa_ctrl_cleanup
  | system_property_find (key : String) (found : Bool)
  | system_property_read (value : String) (serial : Nat)
  | wpa_ctrl_open (handle : Option Nat)
  | wpa_ctrl_close (handle : Nat)
  | wpa_ctrl_attach (handle : Nat) (ret : Int)
  | wpa_ctrl_request (handle : Nat)
  | wpa_ctrl_recv (handle : Nat)
  deriving DecidableEq, Repr

/-! ## `rmmod` and `wifi_unload_driver` -/

/-- Outcome of one `delete_module` system call. -/
structure DelOutcome where
  ret : Int
  errno : Nat
  deriving DecidableEq, Repr

/-- The test `ret < 0 && errno == EAGAIN` of `rmmod`. -/
def DelOutcome.busy (o : DelOutcome) : Bool := decide (o.ret < 0) && decide (o.errno = EAGAIN)

/-- The loop of `rmmod`: `maxtry` is the value of the counter when the loop
condition is evaluated, `k` the number of system calls made so far and `ret`
the current value of the local `ret`. -/
def rmmod_loop (del : Nat → DelOutcome) : Nat → Nat → Int → Int × List Event
  | 0, _, ret => (ret, [])
  | maxtry + 1, k, _ =>
    let o := del k
    if o.busy then
      let r := rmmod_loop del maxtry (k + 1) o.ret
      (r.1, Event.delete_module o.ret o.errno :: Event.usleep 500000 :: r.2)
    else
      (o.ret, [Event.delete_module o.ret o.errno])

/-- C `rmmod(modname)`; `del k` is the outcome of the `k`-th `delete_module`. -/
def rmmod (del : Nat → DelOutcome) : Int × List Event :=
  rmmod_loop del 10 0 (-1)

/-- The polling loop of `wifi_unload_driver`: the first argument is the value
of `count` when the loop condition `count-- > 0` is evaluated, `k` the number
of polls made so far; the result holds the value of `count` after the loop. -/
def unload_wait (loaded : Nat → Bool) : Nat → Nat → Int × List Event
  | 0, _ => (-1, [])
  | count + 1, k =>
    if !loaded k then
      ((count : Int), [Event.is_wifi_driver_loaded false])
    else
      let r := unload_wait loaded count (k + 1)
      (r.1, Event.is_wifi_driver_loaded true :: Event.usleep 500000 :: r.2)

/-- C `wifi_unload_driver()`: `modname` is the stored value of `wlan.modname`,
`del` the outcomes of the removal system calls, `loaded k` the answer of the
`k`-th call of `is_wifi_driver_loaded`. -/
def wifi_unload_driver (modname : String) (del : Nat → DelOutcome) (loaded : Nat → Bool) :
    Int × List Event :=
  if (property_get modname (some WIFI_DRIVER_MODULE_NAME)).1 = 0 then (-1, [])
  else
    let r := rmmod del
    if r.1 = 0 then
      let w := unload_wait loaded 20 0
      if w.1 ≠ 0 then (0, r.2 ++ w.2) else (-1, r.2 ++ w.2)
    else (-1, r.2)

/-! ## `wifi_load_driver` -/

/-- The polling loop of `wifi_load_driver`: the first argument is the value of
`count` when `count-- > 0` is evaluated, `status k` the stored value of
`wlan.driver.status` at the `k`-th poll. The result is `some ret` when the loop
returns from the function and `none` when it runs out. -/
def load_wait (status : Nat → String) : Nat → Nat → Option Int × List Event
  | 0, _ => (none, [])
  | count + 1, k =>
    let g := property_get (status k) none
    if g.1 ≠ 0 then
      if g.2 = "ok" then
        (some 0, [Event.property_get DRIVER_PROP_NAME g.2, Event.get_driver_info])
      else if DRIVER_PROP_NAME = "failed" then
        (some (-1), [Event.property_get DRIVER_PROP_NAME g.2, Event.wifi_unload_driver])
      else
        let r := load_wait status count (k + 1)
        (r.1, Event.property_get DRIVER_PROP_NAME g.2 :: Event.usleep 200000 :: r.2)
    else
      let r := load_wait status count (k + 1)
      (r.1, Event.property_get DRIVER_PROP_NAME g.2 :: Event.usleep 200000 :: r.2)

/-- C `wifi_load_driver()`: `loaded0` is the answer of `is_wifi_driver_loaded`
at entry, `insmodRet` the result of `insmod`, `firmwareLoader` the configured
`WIFI_FIRMWARE_LOADER`. -/
def wifi_load_driver (loaded0 : Bool) (insmodRet : Int) (firmwareLoader : String)
    (status : Nat → String) : Int × List Event :=
  if loaded0 then (0, [Event.is_wifi_driver_loaded true])
  else if insmodRet < 0 then (-1, [Event.is_wifi_driver_loaded false])
  else
    let start :=
      if firmwareLoader = "" then Event.property_set DRIVER_PROP_NAME "ok"
      else Event.property_set "ctl.start" firmwareLoader
    let w := load_wait status 100 0
    match w.1 with
    | some ret => (ret, Event.is_wifi_driver_loaded false :: start :: Event.sched_yield :: w.2)
    | none =>
      (-1, Event.is_wifi_driver_loaded false :: start :: Event.sched_yield :: w.2 ++
        [Event.property_set DRIVER_PROP_NAME "timeout", Event.wifi_unload_driver])

/-! ## Global state of the file -/

/-- The file-scope variables `ctrl_conn`, `monitor_conn` (a handle is a number,
`none` is `NULL`) and `iface`. -/
structure Globals where
  ctrl_conn : Option Nat
  monitor_conn : Option Nat
  iface : String
  deriving DecidableEq, Repr

/-- State of the program at start-up: both pointers `NULL`, `iface` empty. -/
def Globals.init : Globals := ⟨none, none, ""⟩

/-! ## `wifi_start_supplicant` -/

/-- The polling loop of `wifi_start_supplicant`. `sysProps` tells whether the
file is compiled with `HAVE_LIBC_SYSTEM_PROPERTIES`; the first numeric argument
is the value of `count` when `count-- > 0` is evaluated, `k` the number of
polls made so far, `pi` whether the local `pi` is non-NULL. At poll `k`,
`findAt k` is whether `__system_property_find` finds the key, `readAt k` the
value and serial read through `pi`, and `getAt k` the stored value seen by
`property_get`. -/
def start_wait (sysProps : Bool) (serial : Nat) (findAt : Nat → Bool)
    (readAt : Nat → String × Nat) (getAt : Nat → String) :
    Nat → Nat → Bool → Int × List Event
  | 0, _, _ => (-1, [])
  | count + 1, k, pi =>
    if sysProps then
      let found := pi || findAt k
      let ev := if pi then [] else [Event.system_property_find SUPP_PROP_NAME (findAt k)]
      if found then
        let r := readAt k
        if r.1 = "running" then
          (0, ev ++ [Event.system_property_read r.1 r.2])
        else if r.2 ≠ serial ∧ r.1 = "stopped" then
          (-1, ev ++ [Event.system_property_read r.1 r.2])
        else
          let w := start_wait sysProps serial findAt readAt getAt count (k + 1) found
          (w.1, ev ++ Event.system_property_read r.1 r.2 :: Event.usleep 100000 :: w.2)
      else
        let w := start_wait sysProps serial findAt readAt getAt count (k + 1) found
        (w.1, ev ++ Event.usleep 100000 :: w.2)
    else
      let g := property_get (getAt k) none
      if g.1 ≠ 0 ∧ g.2 = "running" then
        (0, [Event.property_get SUPP_PROP_NAME g.2])
      else
        let w := start_wait sysProps serial findAt readAt getAt count (k + 1) pi
        (w.1, Event.property_get SUPP_PROP_NAME g.2 :: Event.usleep 100000 :: w.2)

/-- C `wifi_start_supplicant()`. `initial` is the stored daemon status at
entry, `ensureRet` the result of `ensure_config_file_exists`, `baseline` the
serial of the status property when `__system_property_find` finds it before the
start request, `ifaceProp` the stored value of `wlan.interface`. -/
def wifi_start_supplicant (sysProps : Bool) (g : Globals) (initial : String) (ensureRet : Int)
    (baseline : Option Nat) (ifaceProp : String) (findAt : Nat → Bool)
    (readAt : Nat → String × Nat) (getAt : Nat → String) : Globals × Int × List Event :=
  let s := property_get initial none
  if s.1 ≠ 0 ∧ s.2 = "running" then (g, 0, [Event.property_get SUPP_PROP_NAME s.2])
  else if ensureRet < 0 then (g, -1, [Event.property_get SUPP_PROP_NAME s.2])
  else
    let pi := sysProps && baseline.isSome
    let serial := if sysProps then baseline.getD 0 else 0
    let ev0 := if sysProps then [Event.system_property_find SUPP_PROP_NAME baseline.isSome] else []
    let ifc := (property_get ifaceProp (some WIFI_TEST_INTERFACE)).2
    let daemon_cmd := (SUPPLICANT_NAME ++ ":-i" ++ ifc).take (PROPERTY_VALUE_MAX - 1)
    let w := start_wait sysProps serial findAt readAt getAt 200 0 pi
    ({ g with iface := ifc }, w.1,
      Event.property_get SUPP_PROP_NAME s.2 :: Event.wpa_ctrl_cleanup :: ev0 ++
        Event.property_set "ctl.start" daemon_cmd :: Event.sched_yield :: w.2)

/-! ## The control channel -/

/-- C `wifi_connect_to_supplicant()`: `status` is the stored daemon status,
`open1` and `open2` the results of the two `wpa_ctrl_open` calls, `attach` the
result of `wpa_ctrl_attach`. The socket path built from `iface` only reaches
the environment through these results. -/
def wifi_connect_to_supplicant (g : Globals) (status : String) (open1 open2 : Option Nat)
    (attach : Int) : Globals × Int × List Event :=
  let s := property_get status none
  if s.1 = 0 ∨ s.2 ≠ "running" then (g, -1, [])
  else
    match open1 with
    | none => ({ g with ctrl_conn := none }, -1, [Event.wpa_ctrl_open none])
    | some c =>
      match open2 with
      | none =>
        ({ g with ctrl_conn := none, monitor_conn := none }, -1,
          [Event.wpa_ctrl_open (some c), Event.wpa_ctrl_open none, Event.wpa_ctrl_close c])
      | some m =>
        if attach ≠ 0 then
          ({ g with ctrl_conn := none, monitor_conn := none }, -1,
            [Event.wpa_ctrl_open (some c), Event.wpa_ctrl_open (some m),
              Event.wpa_ctrl_attach m attach, Event.wpa_ctrl_close m, Event.wpa_ctrl_close c])
        else
          ({ g with ctrl_conn := some c, monitor_conn := some m }, 0,
            [Event.wpa_ctrl_open (some c), Event.wpa_ctrl_open (some m),
              Event.wpa_ctrl_attach m attach])

/-- C `wifi_close_supplicant_connection()`. -/
def wifi_close_supplicant_connection (g : Globals) : Globals × List Event :=
  let e1 := match g.ctrl_conn with
    | some c => [Event.wpa_ctrl_close c]
    | none => []
  let e2 := match g.monitor_conn with
    | some m => [Event.wpa_ctrl_close m]
    | none => []
  ({ g with ctrl_conn := none, monitor_conn := none }, e1 ++ e2)

/-- One call of the connection interface, with the outcomes of the operations
it may perform. -/
inductive Call
  | connect (status : String) (open1 open2 : Option Nat) (attach : Int)
  | close
  deriving DecidableEq, Repr

/-- The state after one call. -/
def Call.step (g : Globals) : Call → Globals
  | Call.connect status open1 open2 attach =>
    (wifi_connect_to_supplicant g status open1 open2 attach).1
  | Call.close => (wifi_close_supplicant_connection g).1

/-- The state after a sequence of calls. -/
def run (g : Globals) (calls : List Call) : Globals := calls.foldl Call.step g

/-- Both handles held or both not held. -/
def Globals.paired (g : Globals) : Bool := g.ctrl_conn.isSome == g.monitor_conn.isSome

/-- Every `connect` of the sequence is called while neither handle is held. -/
def connectsWhenClosed (g : Globals) : List Call → Bool
  | [] => true
  | Call.close :: cs => connectsWhenClosed (Call.step g Call.close) cs
  | Call.connect status open1 open2 attach :: cs =>
    g.ctrl_conn.isNone && g.monitor_conn.isNone &&
      connectsWhenClosed (Call.step g (Call.connect status open1 open2 attach)) cs

/-- Outcome of `wpa_ctrl_request`: its result and the bytes of the reply, which
it stored at the start of the reply buffer; on a result that is not negative
their number is the new value of `*reply_len`. -/
structure RequestOutcome where
  ret : Int
  data : List Nat
  deriving DecidableEq, Repr

/-- Result of `wifi_send_command`: the returned value, the reply buffer, the
value of `*reply_len`, and the transport requests issued. -/
structure SendResult where
  ret : Int
  reply : List Nat
  reply_len : Nat
  events : List Event
  deriving DecidableEq, Repr

/-- C `wifi_send_command(ctrl, cmd, reply, reply_len)`: `reply0` is the reply
buffer at entry (its length is the size of the buffer), `reply_len0` the value
of `*reply_len` at entry and `req` the outcome of the transport request. The
bytes of the buffer behind the reply keep what they held at entry. The result
is `none` where the C code writes outside the buffer: a reply longer than asked
for or than the buffer, or the terminator of a `PING` reply that fills the
buffer. -/
def wifi_send_command (g : Globals) (ctrl : Nat) (cmd : List Nat) (reply0 : List Nat)
    (reply_len0 : Nat) (req : RequestOutcome) : Option SendResult :=
  match g.ctrl_conn with
  | none => some ⟨-1, reply0, reply_len0, []⟩
  | some _ =>
    if reply_len0 < req.data.length ∨ reply0.length < req.data.length then none
    else
      let reply := req.data ++ reply0.drop req.data.length
      let reply_len := if req.ret < 0 then reply_len0 else req.data.length
      if req.ret = -2 then some ⟨-2, reply, reply_len, [Event.wpa_ctrl_request ctrl]⟩
      else if req.ret < 0 ∨ strncmp_eq 4 reply (bytes "FAIL") = true then
        some ⟨-1, reply, reply_len, [Event.wpa_ctrl_request ctrl]⟩
      else if strncmp_eq 4 cmd (bytes "PING") then
        if reply_len < reply.length then
          some ⟨0, reply.set reply_len 0, reply_len, [Event.wpa_ctrl_request ctrl]⟩
        else none
      else some ⟨0, reply, reply_len, [Event.wpa_ctrl_request ctrl]⟩

/-- C `wifi_command(command, reply, reply_len)`; a `NULL` `ctrl_conn` is passed
on as handle 0 and never used. -/
def wifi_command (g : Globals) (cmd : List Nat) (reply0 : List Nat) (reply_len0 : Nat)
    (req : RequestOutcome) : Option SendResult :=
  wifi_send_command g (g.ctrl_conn.getD 0) cmd reply0 reply_len0 req

/-- Outcome of `wpa_ctrl_recv`: its result and the bytes it stored at the start
of the buffer; their number is the new value of `nread`. -/
structure RecvOutcome where
  result : Int
  data : List Nat
  deriving DecidableEq, Repr

/-- Result of `wifi_wait_for_event`: the buffer, the returned value and the
receive calls made. -/
structure WaitResult where
  buf : List Nat
  ret : Int
  events : List Event
  deriving DecidableEq, Repr

/-- The fabricated event `strncpy(buf, text, buflen-1); buf[buflen-1] = 0;
return strlen(buf)`. -/
def fabricate (buf : List Nat) (buflen : Nat) (text : List Nat) (events : List Event) :
    Option WaitResult :=
  let b := (strncpy buf text (buflen - 1)).set (buflen - 1) 0
  (strlen b).map fun n => ⟨b, toInt32 n, events⟩

/-- C `wifi_wait_for_event(buf, buflen)`. `terminating` is the literal
`WPA_EVENT_TERMINATING` of `wpa_ctrl.h`, `buf` the caller's buffer of `buflen`
bytes, `recv` the outcome of the receive. The result is `none` where the C code
writes outside the buffer (`buflen = 0`, or a receive longer than asked for). -/
def wifi_wait_for_event (terminating : List Nat) (g : Globals) (recv : RecvOutcome)
    (buf : List Nat) (buflen : Nat) : Option WaitResult :=
  if buflen = 0 ∨ buf.length ≠ buflen then none
  else
    match g.monitor_conn with
    | none => fabricate buf buflen (terminating ++ bytes " - connection closed") []
    | some m =>
      if buflen - 1 < recv.data.length then none
      else
        let nread := recv.data.length
        let buf1 := recv.data ++ buf.drop nread
        if recv.result < 0 then
          fabricate buf1 buflen (terminating ++ bytes " - recv error") [Event.wpa_ctrl_recv m]
        else
          let buf2 := buf1.set nread 0
          if recv.result = 0 ∧ nread = 0 then
            fabricate buf2 buflen (terminating ++ bytes " - signal 0 received")
              [Event.wpa_ctrl_recv m]
          else if buf2.headD 0 = 60 then
            match strchr 62 buf2 with
            | some i =>
              let nread1 := nread - (i + 1)
              some ⟨memmove buf2 0 (i + 1) (nread1 + 1), toInt32 nread1, [Event.wpa_ctrl_recv m]⟩
            | none => some ⟨buf2, toInt32 nread, [Event.wpa_ctrl_recv m]⟩
          else some ⟨buf2, toInt32 nread, [Event.wpa_ctrl_recv m]⟩

/-! ## `ensure_config_file_exists` -/

/-- The literal `"ctrl_interface="` searched for in the config file. -/
def CTRL_KEY : List Nat := bytes "ctrl_interface="

/-- C `strstr(buf, needle)` for a non-empty `needle` without NUL: `some (some p)`
when the first occurrence in the C string of `buf` starts at offset `p`,
`some none` for a NULL result, and `none` when the scan leaves the buffer
without having met an occurrence or a NUL. -/
def strstr (needle : List Nat) : List Nat → Option (Option Nat)
  | [] => none
  | b :: bs =>
    if needle.isPrefixOf (b :: bs) then some (some 0)
    else if b = 0 then some none
    else (strstr needle bs).map (Option.map (· + 1))

/-- The loop `while (ilen + (iptr - pbuf) < nread && iptr[ilen] != '\n') ilen++`
of the rewrite: `ip` holds the bytes from `iptr` on, `room` is
`nread - (iptr - pbuf)`. -/
def scan_line : List Nat → Nat → Nat
  | _, 0 => 0
  | [], _ => 0
  | b :: bs, room + 1 => if b = 10 then 0 else scan_line bs room + 1

/-- Bytes left in `ifc` by `property_get("wlan.interface", ifc, WIFI_TEST_INTERFACE)`
for the stored value `stored`. -/
def property_get_ifc (stored : List Nat) : List Nat :=
  if 0 < stored.length then stored else bytes WIFI_TEST_INTERFACE

/-- The two files the function works on: the contents of the config file and of
the template, `none` for a file that does not exist. -/
structure Files where
  config : Option (List Nat)
  template : Option (List Nat)
  deriving DecidableEq, Repr

/-- Failures the environment may inject, one flag per fallible step, in the
order of the source. -/
structure Faults where
  access_denied : Bool := false
  stat_fails : Bool := false
  malloc_fails : Bool := false
  open_config_fails : Bool := false
  read_config_fails : Bool := false
  open_update_fails : Bool := false
  open_template_fails : Bool := false
  create_fails : Bool := false
  read_template_fails : Bool := false
  chmod_fails : Bool := false
  chown_fails : Bool := false
  deriving DecidableEq, Repr

/-- The environment that injects no failure. -/
def no_faults : Faults := {}

/-- C `write(fd, data, n)` at file offset `pos` of a file opened without
`O_TRUNC`. -/
def write_at (file : List Nat) (pos : Nat) (data : List Nat) : List Nat :=
  file.take pos ++ data ++ file.drop (pos + data.length)

/-- The copy loop `while ((nread = read(srcfd, buf, 2048)) != 0) write(destfd,
buf, nread)`: `src` is the unread part of the template, `file` the target and
`pos` its file offset; the first argument bounds the number of reads. -/
def copy_loop : Nat → List Nat → List Nat → Nat → List Nat
  | 0, _, file, _ => file
  | fuel + 1, src, file, pos =>
    let chunk := src.take 2048
    if chunk.length = 0 then file
    else copy_loop fuel (src.drop 2048) (write_at file pos chunk) (pos + chunk.length)

/-- The target after the copy loop; a template of `n` bytes is read in at most
`n + 1` reads. -/
def copy_template (template old : List Nat) : List Nat :=
  copy_loop (template.length + 1) template old 0

/-- The branch of `ensure_config_file_exists` taken for a readable and writable
config file of more than 10 bytes: `content` is the file, `heap` the bytes of the
`malloc` block that follow the bytes read, `ifc` the interface name. The result
is the returned value and the new contents of the file; `none` where the C code
has undefined behaviour (a scan that leaves the block, a negative `memmove`
length). The `read` is taken to deliver the whole file, as it does for a regular
file. -/
def rewrite_config (f : Faults) (heap ifc content : List Nat) : Option (Int × List Nat) :=
  if f.malloc_fails ∨ f.open_config_fails ∨ f.read_config_fails then some (0, content)
  else
    let nread := content.length
    let pbuf := content ++ heap
    match strstr CTRL_KEY pbuf with
    | none => none
    | some none => some (0, content)
    | some (some p) =>
      let off := p + CTRL_KEY.length
      let ip := pbuf.drop off
      if !strncmp_eq 4 (bytes "DIR=") ip && !strncmp_eq ifc.length ifc ip then
        let ilen := scan_line ip (nread - off)
        let mlen := (if ilen ≥ ifc.length then ilen else ifc.length) + 1
        if nread < off + ilen + 1 then none
        else
          let pbuf1 := memmove pbuf (off + mlen) (off + ilen + 1) (nread - (off + ilen + 1))
          let pbuf2 := memset pbuf1 off 10 mlen
          let pbuf3 := memcpy pbuf2 off ifc
          if f.open_update_fails then some (-1, content)
          else some (0, write_at content 0 (pbuf3.take nread))
      else some (0, content)

/-- The branch of `ensure_config_file_exists` that copies the template over the
config file (`old` is `none` when the file does not exist). -/
def provision_config (f : Faults) (fs : Files) (old : Option (List Nat)) : Int × Files :=
  match fs.template with
  | none => (-1, fs)
  | some template =>
    if f.open_template_fails ∨ f.create_fails then (-1, fs)
    else if f.read_template_fails ∨ f.chmod_fails ∨ f.chown_fails then
      (-1, { fs with config := none })
    else (0, { fs with config := some (copy_template template (old.getD [])) })

/-- C `ensure_config_file_exists()`: `heap` is the uninitialised part of the
`malloc` block (`PROPERTY_VALUE_MAX` bytes), `ifcProp` the stored value of
`wlan.interface`. -/
def ensure_config_file_exists (f : Faults) (heap ifcProp : List Nat) (fs : Files) :
    Option (Int × Files) :=
  if heap.length ≠ PROPERTY_VALUE_MAX ∨ PROPERTY_VALUE_MAX ≤ ifcProp.length then none
  else
    match fs.config with
    | some content =>
      if f.access_denied then some (-1, fs)
      else if !f.stat_fails && decide (10 < content.length) then
        (rewrite_config f heap (property_get_ifc ifcProp) content).map
          fun r => (r.1, { fs with config := some r.2 })
      else some (provision_config f fs (some content))
    | none =>
      if f.access_denied then some (-1, fs)
      else some (provision_config f fs none)

/-! ## Observers of event lists -/

/-- Number of `delete_module` calls in a run. -/
def attempts : List Event → Nat
  | [] => 0
  | Event.delete_module _ _ :: t => attempts t + 1
  | _ :: t => attempts t

/-- Total time slept in a run, in microseconds. -/
def slept : List Event → Nat
  | [] => 0
  | Event.usleep us :: t => us + slept t
  | _ :: t => slept t

/-- Number of `is_wifi_driver_loaded` calls in a run. -/
def polls : List Event → Nat
  | [] => 0
  | Event.is_wifi_driver_loaded _ :: t => polls t + 1
  | _ :: t => polls t

/-- The events of `n` removal attempts that each report busy, starting with the
`k`-th system call: every attempt is followed by a sleep of 500 ms. -/
def busy_rounds (del : Nat → DelOutcome) : Nat → Nat → List Event
  | 0, _ => []
  | n + 1, k =>
    Event.delete_module (del k).ret (del k).errno :: Event.usleep 500000 ::
      busy_rounds del n (k + 1)

/-- Whether the local `pi` of `wifi_start_supplicant` is non-NULL after the
lookup of poll `k + j`, when it had the value `pi` before poll `k`. -/
def known (findAt : Nat → Bool) (pi : Bool) (k : Nat) : Nat → Bool
  | 0 => pi || findAt k
  | j + 1 => known findAt pi k j || findAt (k + (j + 1))

/-- Poll `k + j` of `wifi_start_supplicant` reads the value "running". -/
def reads_running (findAt : Nat → Bool) (readAt : Nat → String × Nat) (pi : Bool)
    (k j : Nat) : Bool :=
  known findAt pi k j && decide ((readAt (k + j)).1 = "running")

/-- Poll `k + j` of `wifi_start_supplicant` reads the value "stopped" with a
serial other than `serial`. -/
def reads_stopped (serial : Nat) (findAt : Nat → Bool) (readAt : Nat → String × Nat)
    (pi : Bool) (k j : Nat) : Bool :=
  known findAt pi k j && decide ((readAt (k + j)).1 = "stopped") &&
    decide ((readAt (k + j)).2 ≠ serial)

/-- Number of polls of the status property in the events of the polling loop of
`wifi_start_supplicant`: a poll either reads the property or fails to find it. -/
def status_polls : List Event → Nat
  | [] => 0
  | Event.system_property_read _ _ :: t => status_polls t + 1
  | Event.system_property_find _ false :: t => status_polls t + 1
  | _ :: t => status_polls t

/-- The rewrite branch leaves a config file with these bytes alone: the search
for the directive ends at a NUL byte, or the bytes after the first
`ctrl_interface=` start with "DIR=" or with the interface name. -/
def directive_settled (ifc content : List Nat) : Bool :=
  match strstr CTRL_KEY content with
  | some none => true
  | some (some p) =>
    (bytes "DIR=").isPrefixOf (content.drop (p + 15)) || ifc.isPrefixOf (content.drop (p + 15))
  | none => false

/-- The first directive of a config file with these bytes can be rewritten in
place: its line ends in a newline inside the file, and the file has room for
the interface name behind `ctrl_interface=`. -/
def directive_rewritable (ifc content : List Nat) : Bool :=
  match strstr CTRL_KEY content with
  | some (some p) =>
    decide (10 ∈ content.drop (p + 15)) && decide (p + 15 + ifc.length ≤ content.length)
  | _ => false

end Wifi

/-! # Theorems -/

set_option maxRecDepth 100000

namespace Wifi

theorem toInt32_of_lt {n : Nat} (h : n < 2 ^ 31) : toInt32 n = (n : Int) := by
  unfold toInt32
  have h1 : (n + 2 ^ 31) % 2 ^ 32 = n + 2 ^ 31 := Nat.mod_eq_of_lt (by omega)
  rw [h1]; push_cast; ring

theorem strlen_append_nul (s rest : List Nat) (h0 : 0 ∉ s) :
    strlen (s ++ 0 :: rest) = some s.length := by
  induction s with
  | nil => simp [strlen]
  | cons a t ih =>
    have ha : a ≠ 0 := fun h => h0 (by simp [h])
    have ht : 0 ∉ t := fun h => h0 (by simp [h])
    simp [strlen, ha, ih ht]

theorem cstr_append_nul (s rest : List Nat) (h0 : 0 ∉ s) :
    cstr (s ++ 0 :: rest) = s := by
  unfold cstr
  rw [List.takeWhile_append_of_pos]
  · simp
  · intro a ha
    simp only [ne_eq, decide_not, Bool.not_eq_eq_eq_not, Bool.not_true, decide_eq_false_iff_not]
    intro h; subst h; exact h0 ha

theorem strchr_first (c : Nat) (pre post : List Nat) (hc : c ∉ pre) (h0 : 0 ∉ pre) :
    strchr c (pre ++ c :: post) = some pre.length := by
  induction pre with
  | nil => simp [strchr]
  | cons a t ih =>
    have ha : a ≠ c := fun h => hc (by simp [h])
    have ha0 : a ≠ 0 := fun h => h0 (by simp [h])
    have ht : c ∉ t := fun h => hc (by simp [h])
    have ht0 : 0 ∉ t := fun h => h0 (by simp [h])
    simp [strchr, ha, ha0, ih ht ht0]

theorem dropWhile_first (c : Nat) (pre post : List Nat) (hc : c ∉ pre) :
    (pre ++ c :: post).dropWhile (· ≠ c) = c :: post := by
  rw [List.dropWhile_append_of_pos]
  · simp
  · intro a ha
    simp only [ne_eq, decide_not, Bool.not_eq_eq_eq_not, Bool.not_true, decide_eq_false_iff_not]
    intro h; subst h; exact hc ha

/-- C1: after a successful receive whose payload (non-empty, at most `buflen - 1`
bytes, without NUL) begins with `<` and contains `>`, `wifi_wait_for_event`
leaves in the buffer the payload bytes that follow the first `>`, then a NUL,
and returns the number of those bytes (the payload length fits the `int`
result). -/
theorem wait_for_event_strips_marker (terminating : List Nat) (g : Globals) (m : Nat)
    (recv : RecvOutcome) (buf : List Nat) (buflen : Nat)
    (hm : g.monitor_conn = some m) (hbuf : buf.length = buflen)
    (hres : 0 ≤ recv.result) (hne : recv.data ≠ [])
    (hlen : recv.data.length + 1 ≤ buflen) (hnul : 0 ∉ recv.data)
    (hlt : recv.data.head? = some 60) (hgt : 62 ∈ recv.data)
    (hint : recv.data.length < 2 ^ 31) :
    ∃ r, wifi_wait_for_event terminating g recv buf buflen = some r ∧
      r.buf.take (((recv.data.dropWhile (· ≠ 62)).drop 1).length + 1)
        = (recv.data.dropWhile (· ≠ 62)).drop 1 ++ [0] ∧
      r.ret = (((recv.data.dropWhile (· ≠ 62)).drop 1).length : Int) ∧
      r.buf.length = buflen ∧
      r.events = [Event.wpa_ctrl_recv m] := by
  obtain ⟨res, data⟩ := recv
  simp only at hres hne hlen hnul hlt hgt hint ⊢
  obtain ⟨pre, text, hd, hpre⟩ := List.eq_append_cons_of_mem hgt
  have hpre0 : 0 ∉ pre := fun h => hnul (by rw [hd]; simp [h])
  have htext0 : 0 ∉ text := fun h => hnul (by rw [hd]; simp [h])
  have hdl : data.length = pre.length + text.length + 1 := by rw [hd]; simp; omega
  have hdw : (data.dropWhile (· ≠ 62)).drop 1 = text := by
    rw [hd, dropWhile_first 62 pre text hpre]; rfl
  rw [hdw]
  -- the buffer after the receive and the terminator
  have hb2 : (data ++ buf.drop data.length).set data.length 0
      = pre ++ 62 :: (text ++ 0 :: buf.drop (data.length + 1)) := by
    rw [List.set_append_right _ _ (le_refl _)]
    have : (buf.drop data.length) = buf[data.length] :: buf.drop (data.length + 1) := by
      rw [List.drop_eq_getElem_cons]
    rw [Nat.sub_self, this, List.set_cons_zero, hd]
    simp
  have hhead : ((data ++ buf.drop data.length).set data.length 0).headD 0 = 60 := by
    cases data with
    | nil => exact absurd rfl hne
    | cons a t =>
      simp at hlt
      simp [hlt]
  unfold wifi_wait_for_event
  have c1 : ¬ (buflen = 0 ∨ buf.length ≠ buflen) := by omega
  have c2 : ¬ (buflen - 1 < data.length) := by omega
  have c3 : ¬ (res < 0) := by omega
  have c4 : ¬ (res = 0 ∧ data.length = 0) := by
    rintro ⟨-, h⟩; exact hne (List.length_eq_zero.mp h)
  simp only [c1, hm, c2, c3, c4, if_false, hhead, if_true]
  rw [hb2, strchr_first 62 pre _ hpre hpre0]
  refine ⟨_, rfl, ?_, ?_, ?_, rfl⟩
  · simp only [memmove, List.take_zero, List.nil_append, Nat.zero_add]
    have e1 : (pre ++ 62 :: (text ++ 0 :: buf.drop (data.length + 1))).drop (pre.length + 1)
        = text ++ 0 :: buf.drop (data.length + 1) := by
      simp
    have e2 : data.length - (pre.length + 1) + 1 = text.length + 1 := by omega
    have e3 : (text ++ 0 :: buf.drop (data.length + 1)).take (text.length + 1)
        = text ++ [0] := by
      rw [show text ++ 0 :: buf.drop (data.length + 1)
        = (text ++ [0]) ++ buf.drop (data.length + 1) by simp]
      exact List.take_left' (by simp)
    rw [e1, e2, e3]
    exact List.take_left' (by simp)
  · have e2 : data.length - (pre.length + 1) = text.length := by omega
    simp only [e2]
    exact toInt32_of_lt (by omega)
  · simp only [memmove, List.take_zero, List.nil_append, Nat.zero_add]
    simp
    omega

/-- Witness of C1 at the payload `<2>CTRL-EVENT-CONNECTED foo`: the text
`CTRL-EVENT-CONNECTED foo` and the value 24 are returned. -/
theorem wait_for_event_strips_marker_witness :
    ∃ r, wifi_wait_for_event (bytes "CTRL-EVENT-TERMINATING ") ⟨some 1, some 2, "sta"⟩
        ⟨0, bytes "<2>CTRL-EVENT-CONNECTED foo"⟩ (List.replicate 40 65) 40 = some r ∧
      r.buf.take 25 = bytes "CTRL-EVENT-CONNECTED foo" ++ [0] ∧
      r.ret = 24 ∧ r.buf.length = 40 ∧ r.events = [Event.wpa_ctrl_recv 2] :=
  wait_for_event_strips_marker (bytes "CTRL-EVENT-TERMINATING ") ⟨some 1, some 2, "sta"⟩ 2
    ⟨0, bytes "<2>CTRL-EVENT-CONNECTED foo"⟩ (List.replicate 40 65) 40
    rfl (by decide) (by decide) (by decide) (by decide) (by decide) (by decide) (by decide)
    (by decide)

theorem strncmp_eq_comm (n : Nat) (a b : List Nat) : strncmp_eq n a b = strncmp_eq n b a := by
  induction n generalizing a b with
  | zero => simp [strncmp_eq]
  | succ n ih =>
    simp only [strncmp_eq, ih a.tail b.tail]
    by_cases h : a.headD 0 = b.headD 0
    · rw [h]
    · rw [if_pos h, if_pos (Ne.symm h)]

theorem strncmp_eq_lit (n : Nat) (lit a : List Nat) (hn : n ≤ lit.length) (h0 : 0 ∉ lit) :
    strncmp_eq n lit a = true ↔ lit.take n <+: a := by
  induction n generalizing lit a with
  | zero => simp [strncmp_eq]
  | succ n ih =>
    cases lit with
    | nil => simp at hn
    | cons y lit =>
      have hy : y ≠ 0 := fun h => h0 (by simp [h])
      have hl : 0 ∉ lit := fun h => h0 (by simp [h])
      cases a with
      | nil => simp [strncmp_eq, hy]
      | cons x a =>
        simp only [strncmp_eq, List.headD_cons, List.tail_cons, List.take_succ_cons]
        by_cases hxy : y = x
        · subst hxy
          simp [hy, ih lit a (by simpa using hn) hl, List.cons_prefix_cons]
        · simp [hxy, List.cons_prefix_cons]

theorem fabricate_spec (buf : List Nat) (buflen : Nat) (msg : List Nat) (events : List Event)
    (hcap : 1 ≤ buflen) (hbuf : buf.length = buflen) (h0 : 0 ∉ msg)
    (hint : msg.length < 2 ^ 31) :
    ∃ r, fabricate buf buflen msg events = some r ∧ r.events = events ∧
      r.buf.length = buflen ∧ cstr r.buf = msg.take (buflen - 1) ∧
      strlen r.buf = some (cstr r.buf).length ∧ r.ret = ((cstr r.buf).length : Int) := by
  have hs0 : 0 ∉ msg.take (buflen - 1) := fun h => h0 (List.mem_of_mem_take h)
  have hb : (strncpy buf msg (buflen - 1)).set (buflen - 1) 0
      = msg.take (buflen - 1) ++ 0 :: List.replicate (buflen - 1 - msg.length) 0 := by
    unfold strncpy
    have hl : (msg.take (buflen - 1) ++ List.replicate (buflen - 1 - msg.length) 0).length
        = buflen - 1 := by
      rw [List.length_append, List.length_take, List.length_replicate, Nat.min_def]
      split <;> omega
    rw [List.set_append_right _ _ (by rw [hl]), hl, Nat.sub_self]
    have hd : buf.drop (buflen - 1) = [buf[buflen - 1]] := by
      have hlt : buflen - 1 < buf.length := by omega
      rw [List.drop_eq_getElem_cons hlt, List.drop_of_length_le (by omega)]
    rw [hd, List.set_cons_zero, List.append_assoc]
    congr 1
    rw [← List.replicate_succ, List.replicate_succ']
  unfold fabricate
  simp only [hb, strlen_append_nul _ _ hs0, Option.map_some']
  refine ⟨_, rfl, ?_⟩
  dsimp only
  rw [cstr_append_nul _ _ hs0, strlen_append_nul _ _ hs0]
  refine ⟨rfl, ?_, rfl, rfl, ?_⟩
  · rw [List.length_append, List.length_take, List.length_cons, List.length_replicate,
      Nat.min_def]
    split <;> omega
  · apply toInt32_of_lt
    rw [List.length_take, Nat.min_def]
    split <;> omega

/-- C3, amended: with the monitor connection not held and a buffer of capacity
`buflen ≥ 1`, `wifi_wait_for_event` performs no receive, leaves in the buffer
the NUL-terminated first `buflen - 1` bytes of the text `WPA_EVENT_TERMINATING`
followed by " - connection closed", and returns the length of that string; when
`buflen` exceeds the length of the text the string begins with the sentinel and
contains "connection closed". -/
theorem wait_for_event_closed (terminating : List Nat) (g : Globals) (recv : RecvOutcome)
    (buf : List Nat) (buflen : Nat)
    (hm : g.monitor_conn = none) (hcap : 1 ≤ buflen) (hbuf : buf.length = buflen)
    (hnul : 0 ∉ terminating) (hint : terminating.length + 20 < 2 ^ 31) :
    ∃ r, wifi_wait_for_event terminating g recv buf buflen = some r ∧
      r.events = [] ∧ r.buf.length = buflen ∧
      cstr r.buf = (terminating ++ bytes " - connection closed").take (buflen - 1) ∧
      strlen r.buf = some (cstr r.buf).length ∧
      r.ret = ((cstr r.buf).length : Int) ∧
      ((terminating ++ bytes " - connection closed").length < buflen →
        terminating <+: cstr r.buf ∧ bytes "connection closed" <:+: cstr r.buf) := by
  have hmsg0 : 0 ∉ terminating ++ bytes " - connection closed" := by
    simp only [List.mem_append, not_or]
    exact ⟨hnul, by decide⟩
  have hmsgl : (terminating ++ bytes " - connection closed").length = terminating.length + 20 := by
    simp [bytes]
  obtain ⟨r, hr, he, hl, hc, hs, hret⟩ := fabricate_spec buf buflen _ [] hcap hbuf hmsg0
    (by omega)
  refine ⟨r, ?_, he, hl, hc, hs, hret, ?_⟩
  · unfold wifi_wait_for_event
    have c1 : ¬ (buflen = 0 ∨ buf.length ≠ buflen) := by omega
    simp only [c1, hm, if_false]
    exact hr
  · intro hlt
    rw [hc, List.take_of_length_le (by omega)]
    refine ⟨List.prefix_append _ _, ?_⟩
    exact ⟨terminating ++ bytes " - ", [], by simp [bytes]⟩

/-- Witness of the amended C3 for a buffer of 64 bytes. -/
theorem wait_for_event_closed_witness :
    ∃ r, wifi_wait_for_event (bytes "CTRL-EVENT-TERMINATING ") Globals.init ⟨0, []⟩
        (List.replicate 64 65) 64 = some r ∧
      r.events = [] ∧ r.buf.length = 64 ∧
      cstr r.buf = bytes "CTRL-EVENT-TERMINATING  - connection closed" ∧
      strlen r.buf = some (cstr r.buf).length ∧
      r.ret = ((cstr r.buf).length : Int) ∧
      ((bytes "CTRL-EVENT-TERMINATING " ++ bytes " - connection closed").length < 64 →
        bytes "CTRL-EVENT-TERMINATING " <+: cstr r.buf ∧
          bytes "connection closed" <:+: cstr r.buf) :=
  wait_for_event_closed (bytes "CTRL-EVENT-TERMINATING ") Globals.init ⟨0, []⟩
    (List.replicate 64 65) 64 rfl (by decide) (by decide) (by decide) (by decide)

/-- Counterexample to C3 as stated: with a buffer of capacity 1 the string left
is empty, so it neither begins with the sentinel nor contains "connection
closed". -/
theorem wait_for_event_closed_small_buffer :
    wifi_wait_for_event (bytes "CTRL-EVENT-TERMINATING ") Globals.init ⟨0, []⟩ [65] 1
        = some ⟨[0], 0, []⟩ ∧
      cstr [0] = [] ∧
      ¬ (bytes "CTRL-EVENT-TERMINATING " <+: cstr [0]) ∧
      ¬ (bytes "connection closed" <:+: cstr [0]) := by
  refine ⟨by decide, by decide, ?_, ?_⟩
  · simp [cstr, bytes]
  · simp [cstr, bytes]

/-- C2: without a command connection `wifi_send_command` returns -1 and issues
no request; otherwise it issues exactly one request, returns -2 iff the
transport reports -2, and otherwise returns -1 iff the transport result is
negative or the reply buffer begins with "FAIL", and 0 in every remaining case.
The test is made on the first four bytes of the buffer: a reply that begins with
"FAIL" always gives -1, and for a reply of at least four bytes the test is the
test of the claim; for a shorter reply the bytes the buffer held before are
compared as well. -/
theorem send_command_result (g : Globals) (ctrl : Nat) (cmd reply0 : List Nat)
    (reply_len0 : Nat) (req : RequestOutcome) :
    (g.ctrl_conn = none →
      wifi_send_command g ctrl cmd reply0 reply_len0 req
        = some ⟨-1, reply0, reply_len0, []⟩) ∧
    (g.ctrl_conn ≠ none → req.data.length ≤ reply_len0 → req.data.length ≤ reply0.length →
      (strncmp_eq 4 cmd (bytes "PING") = true → req.data.length < reply0.length) →
      ∃ r, wifi_send_command g ctrl cmd reply0 reply_len0 req = some r ∧
        r.events = [Event.wpa_ctrl_request ctrl] ∧
        (r.ret = -2 ↔ req.ret = -2) ∧
        (r.ret = -1 ↔ req.ret ≠ -2 ∧
          (req.ret < 0 ∨ bytes "FAIL" <+: req.data ++ reply0.drop req.data.length)) ∧
        (r.ret = 0 ↔
          ¬ (req.ret < 0) ∧ ¬ (bytes "FAIL" <+: req.data ++ reply0.drop req.data.length)) ∧
        (bytes "FAIL" <+: req.data →
          bytes "FAIL" <+: req.data ++ reply0.drop req.data.length) ∧
        (4 ≤ req.data.length →
          (bytes "FAIL" <+: req.data ++ reply0.drop req.data.length ↔
            bytes "FAIL" <+: req.data))) := by
  have hF : strncmp_eq 4 (req.data ++ reply0.drop req.data.length) (bytes "FAIL") = true ↔
      bytes "FAIL" <+: req.data ++ reply0.drop req.data.length := by
    rw [strncmp_eq_comm, strncmp_eq_lit 4 (bytes "FAIL") _ (by decide) (by decide)]
    rfl
  have hpre : bytes "FAIL" <+: req.data →
      bytes "FAIL" <+: req.data ++ reply0.drop req.data.length :=
    fun h => h.trans (List.prefix_append _ _)
  have hlong : 4 ≤ req.data.length →
      (bytes "FAIL" <+: req.data ++ reply0.drop req.data.length ↔
        bytes "FAIL" <+: req.data) := by
    intro h4
    refine ⟨fun h => ?_, hpre⟩
    exact List.prefix_of_prefix_length_le h (List.prefix_append _ _) (by simpa [bytes] using h4)
  constructor
  · intro h
    simp [wifi_send_command, h]
  · intro h hlen hfit hping
    obtain ⟨c, hc⟩ := Option.ne_none_iff_exists'.mp h
    have hin : ¬ (reply_len0 < req.data.length ∨ reply0.length < req.data.length) := by omega
    by_cases h2 : req.ret = -2
    · have hr : ∃ r, wifi_send_command g ctrl cmd reply0 reply_len0 req = some r ∧
          r.ret = -2 ∧ r.events = [Event.wpa_ctrl_request ctrl] := by
        simp only [wifi_send_command, hc, if_neg hin, if_pos h2]
        exact ⟨_, rfl, rfl, rfl⟩
      obtain ⟨r, hr1, hr2, hr3⟩ := hr
      refine ⟨r, hr1, hr3, ?_, ?_, ?_, hpre, hlong⟩
      · rw [hr2]; exact ⟨fun _ => h2, fun _ => rfl⟩
      · rw [hr2]; exact ⟨fun h => absurd h (by decide), fun h => absurd h2 h.1⟩
      · rw [hr2]; exact ⟨fun h => absurd h (by decide), fun h => absurd (by omega) h.1⟩
    · by_cases h3 : req.ret < 0 ∨
          bytes "FAIL" <+: req.data ++ reply0.drop req.data.length
      · have hr : ∃ r, wifi_send_command g ctrl cmd reply0 reply_len0 req = some r ∧
            r.ret = -1 ∧ r.events = [Event.wpa_ctrl_request ctrl] := by
          simp only [wifi_send_command, hc, hF, if_neg hin, if_neg h2, if_pos h3]
          exact ⟨_, rfl, rfl, rfl⟩
        obtain ⟨r, hr1, hr2, hr3⟩ := hr
        refine ⟨r, hr1, hr3, ?_, ?_, ?_, hpre, hlong⟩
        · rw [hr2]; exact ⟨fun h => absurd h (by decide), fun h => absurd h h2⟩
        · rw [hr2]; exact ⟨fun _ => ⟨h2, h3⟩, fun _ => rfl⟩
        · rw [hr2]
          refine ⟨fun h => absurd h (by decide), fun h => ?_⟩
          rcases h3 with h3 | h3
          · exact absurd h3 h.1
          · exact absurd h3 h.2
      · have h4 := not_or.mp h3
        have hlen2 : (if req.ret < 0 then reply_len0 else req.data.length)
            < (req.data ++ reply0.drop req.data.length).length ↔
            req.data.length < reply0.length := by
          rw [if_neg h4.1, List.length_append, List.length_drop]
          omega
        have hr : ∃ r, wifi_send_command g ctrl cmd reply0 reply_len0 req = some r ∧
            r.ret = 0 ∧ r.events = [Event.wpa_ctrl_request ctrl] := by
          simp only [wifi_send_command, hc, hF, if_neg hin, if_neg h2, if_neg h3]
          by_cases hp : strncmp_eq 4 cmd (bytes "PING") = true
          · rw [if_pos hp, if_pos (hlen2.mpr (hping hp))]
            exact ⟨_, rfl, rfl, rfl⟩
          · rw [if_neg hp]
            exact ⟨_, rfl, rfl, rfl⟩
        obtain ⟨r, hr1, hr2, hr3⟩ := hr
        refine ⟨r, hr1, hr3, ?_, ?_, ?_, hpre, hlong⟩
        · rw [hr2]; exact ⟨fun h => absurd h (by decide), fun h => absurd h h2⟩
        · rw [hr2]; exact ⟨fun h => absurd h (by decide), fun h => absurd h.2 h3⟩
        · rw [hr2]; exact ⟨fun _ => h4, fun _ => rfl⟩

/-- Witness of C2 at the failing input: the buffer still holds "FAIL" and a
newline from an earlier command, the transport succeeds with a reply of 0
bytes, and the function returns -1 although the reply does not begin with
"FAIL". -/
theorem send_command_result_witness :
    ∃ r, wifi_send_command ⟨some 1, some 2, "sta"⟩ 1 (bytes "BSS 9")
        (bytes "FAIL\n" ++ List.replicate 59 0) 63 ⟨0, []⟩ = some r ∧
      r.ret = -1 ∧ r.events = [Event.wpa_ctrl_request 1] ∧
      ¬ (bytes "FAIL" <+: ([] : List Nat)) := by
  obtain ⟨r, h1, h2, -, h4, -⟩ := (send_command_result ⟨some 1, some 2, "sta"⟩ 1 (bytes "BSS 9")
    (bytes "FAIL\n" ++ List.replicate 59 0) 63 ⟨0, []⟩).2 (by decide) (by decide) (by decide)
    (by decide)
  exact ⟨r, h1, h4.mpr ⟨by decide, Or.inr (by decide)⟩, h2, by decide⟩

/-- The runs of `wifi_send_command` that decide C2, evaluated: a reply of 0
bytes received into a buffer that still begins with "FAIL" gives -1, the same
reply received into a cleared buffer gives 0, and a timeout gives -2. -/
theorem send_command_short_reply_over_stale_buffer :
    (wifi_send_command ⟨some 1, some 2, "sta"⟩ 1 (bytes "BSS 9")
        (bytes "FAIL\n" ++ List.replicate 59 0) 63 ⟨0, []⟩).map (fun r => r.ret)
      = some (-1) ∧
    (wifi_send_command ⟨some 1, some 2, "sta"⟩ 1 (bytes "BSS 9")
        (List.replicate 64 0) 63 ⟨0, []⟩).map (fun r => r.ret) = some 0 ∧
    (wifi_send_command ⟨some 1, some 2, "sta"⟩ 1 (bytes "BSS 9")
        (List.replicate 64 0) 63 ⟨-2, []⟩).map (fun r => r.ret) = some (-2) ∧
    wifi_send_command ⟨some 1, some 2, "sta"⟩ 1 (bytes "PING")
        (List.replicate 5 0) 5 ⟨0, bytes "PONG\n"⟩ = none := by
  decide

/-! ### Driver unload -/

theorem property_get_default_ne_zero (stored : String) :
    (property_get stored (some WIFI_DRIVER_MODULE_NAME)).1 ≠ 0 := by
  unfold property_get
  split
  · simp only; omega
  · decide

theorem polls_append (a b : List Event) : polls (a ++ b) = polls a + polls b := by
  induction a with
  | nil => simp [polls]
  | cons e t ih => cases e <;> simp [polls, ih]; omega

theorem polls_rmmod_loop (del : Nat → DelOutcome) (m k : Nat) (ret : Int) :
    polls (rmmod_loop del m k ret).2 = 0 := by
  induction m generalizing k ret with
  | zero => simp [rmmod_loop, polls]
  | succ m ih =>
    simp only [rmmod_loop]
    split
    · simp [polls, ih]
    · simp [polls]

theorem polls_unload_wait (loaded : Nat → Bool) (c k : Nat) :
    polls (unload_wait loaded c k).2 ≤ c := by
  induction c generalizing k with
  | zero => simp [unload_wait, polls]
  | succ c ih =>
    simp only [unload_wait]
    split
    · simp [polls]
    · have := ih (k + 1)
      simp only [polls]
      omega

theorem unload_wait_zero_iff (loaded : Nat → Bool) (c k : Nat) :
    (unload_wait loaded c k).1 = 0 ↔
      ∃ n, c = n + 1 ∧ (∀ j, j < n → loaded (k + j) = true) ∧ loaded (k + n) = false := by
  induction c generalizing k with
  | zero => simp [unload_wait]
  | succ c ih =>
    simp only [unload_wait]
    by_cases hk : loaded k = true
    · simp only [hk, Bool.not_true, Bool.false_eq_true, if_false]
      rw [ih (k + 1)]
      constructor
      · rintro ⟨n, hc, hall, hlast⟩
        refine ⟨n + 1, by omega, ?_, ?_⟩
        · intro j hj
          cases j with
          | zero => simpa using hk
          | succ j =>
            have := hall j (by omega)
            rwa [show k + 1 + j = k + (j + 1) by omega] at this
        · rwa [show k + 1 + n = k + (n + 1) by omega] at hlast
      · rintro ⟨n, hc, hall, hlast⟩
        cases n with
        | zero => simp [hk] at hlast
        | succ n =>
          refine ⟨n, by omega, ?_, ?_⟩
          · intro j hj
            have := hall (j + 1) (by omega)
            rwa [show k + (j + 1) = k + 1 + j by omega] at this
          · rwa [show k + (n + 1) = k + 1 + n by omega] at hlast
    · have hk2 : loaded k = false := by simpa using hk
      simp only [hk2, Bool.not_false, if_true]
      constructor
      · intro h
        have hc : c = 0 := by exact_mod_cast h
        exact ⟨0, by omega, by intro j hj; omega, by simpa using hk2⟩
      · rintro ⟨n, hc, hall, -⟩
        cases n with
        | zero =>
          have : c = 0 := by omega
          simp [this]
        | succ n =>
          have := hall 0 (by omega)
          simp [hk2] at this

/-- C4: when the removal succeeds, `wifi_unload_driver` polls at most 20 times
and returns -1 exactly when the first poll that reports the driver not loaded is
the 20th one; in every other case, also when all 20 polls report the driver
loaded, it returns 0. -/
theorem unload_driver_poll_result (modname : String) (del : Nat → DelOutcome)
    (loaded : Nat → Bool) (hrm : (rmmod del).1 = 0) :
    polls (wifi_unload_driver modname del loaded).2 ≤ 20 ∧
    ((wifi_unload_driver modname del loaded).1 = -1 ↔
      (∀ j, j < 19 → loaded j = true) ∧ loaded 19 = false) ∧
    ((wifi_unload_driver modname del loaded).1 = 0 ↔
      ¬ ((∀ j, j < 19 → loaded j = true) ∧ loaded 19 = false)) := by
  have hz := unload_wait_zero_iff loaded 20 0
  have hz2 : (unload_wait loaded 20 0).1 = 0 ↔
      (∀ j, j < 19 → loaded j = true) ∧ loaded 19 = false := by
    rw [hz]
    constructor
    · rintro ⟨n, hn, hall, hlast⟩
      have : n = 19 := by omega
      subst this
      exact ⟨fun j hj => by simpa using hall j hj, by simpa using hlast⟩
    · rintro ⟨hall, hlast⟩
      exact ⟨19, rfl, fun j hj => by simpa using hall j hj, by simpa using hlast⟩
  unfold wifi_unload_driver
  simp only [property_get_default_ne_zero, if_false, hrm, if_true]
  refine ⟨?_, ?_, ?_⟩
  · have h1 : polls (rmmod del).2 = 0 := polls_rmmod_loop del 10 0 (-1)
    have h2 := polls_unload_wait loaded 20 0
    split <;> (simp only [polls_append]; omega)
  · rw [← hz2]
    by_cases h : (unload_wait loaded 20 0).1 = 0 <;> simp [h]
  · rw [← hz2]
    by_cases h : (unload_wait loaded 20 0).1 = 0 <;> simp [h]

/-- Witness of C4: with all 20 polls reporting the driver loaded the function
returns 0. -/
theorem unload_driver_poll_result_witness :
    (rmmod fun _ => ⟨0, 0⟩).1 = 0 ∧
    (∀ j, j < 20 → (fun _ : Nat => true) j = true) ∧
    (wifi_unload_driver "wlan" (fun _ => ⟨0, 0⟩) (fun _ => true)).1 = 0 :=
  ⟨by decide, fun _ _ => rfl,
    (unload_driver_poll_result "wlan" (fun _ => ⟨0, 0⟩) (fun _ => true) (by decide)).2.2.mpr
      (by simp)⟩

/-- The two runs of `wifi_unload_driver` that decide C4: 20 polls that all report
loaded (20 sleeps, result 0), and a driver first reported unloaded at the 20th
poll (result -1). -/
theorem unload_driver_all_polls_loaded :
    (wifi_unload_driver "wlan" (fun _ => ⟨0, 0⟩) (fun _ => true)).1 = 0 ∧
    polls (wifi_unload_driver "wlan" (fun _ => ⟨0, 0⟩) (fun _ => true)).2 = 20 ∧
    slept (wifi_unload_driver "wlan" (fun _ => ⟨0, 0⟩) (fun _ => true)).2 = 20 * 500000 ∧
    (wifi_unload_driver "wlan" (fun _ => ⟨0, 0⟩) (fun k => decide (k < 19))).1 = -1 := by
  decide

/-! ### Driver load -/

theorem load_wait_never_fails_fast (status : Nat → String) (c k : Nat) :
    (load_wait status c k).1 ≠ some (-1) := by
  have hkey : ¬ DRIVER_PROP_NAME = "failed" := by decide
  induction c generalizing k with
  | zero => simp [load_wait]
  | succ c ih =>
    simp only [load_wait, hkey, if_false]
    split
    · split
      · simp
      · exact ih (k + 1)
    · exact ih (k + 1)

/-- C5: with a readiness property that reads "failed" at every poll,
`wifi_load_driver` sleeps through all 100 polls (20 s), then sets the property
to "timeout", calls `wifi_unload_driver` once, at the end, and returns -1. -/
theorem load_driver_ignores_failed :
    (wifi_load_driver false 0 "wlan_loader" (fun _ => "failed")).1 = -1 ∧
    slept (wifi_load_driver false 0 "wlan_loader" (fun _ => "failed")).2 = 100 * 200000 ∧
    (wifi_load_driver false 0 "wlan_loader" (fun _ => "failed")).2.drop 203
      = [Event.property_set DRIVER_PROP_NAME "timeout", Event.wifi_unload_driver] ∧
    Event.wifi_unload_driver ∉
      (wifi_load_driver false 0 "wlan_loader" (fun _ => "failed")).2.take 203 := by
  decide

/-! ### Module removal -/

theorem attempts_append (a b : List Event) : attempts (a ++ b) = attempts a + attempts b := by
  induction a with
  | nil => simp [attempts]
  | cons e t ih => cases e <;> simp [attempts, ih]; omega

theorem slept_append (a b : List Event) : slept (a ++ b) = slept a + slept b := by
  induction a with
  | nil => simp [slept]
  | cons e t ih => cases e <;> simp [slept, ih]; omega

theorem attempts_busy_rounds (del : Nat → DelOutcome) (n k : Nat) :
    attempts (busy_rounds del n k) = n := by
  induction n generalizing k with
  | zero => rfl
  | succ n ih => simp [busy_rounds, attempts, ih]

theorem slept_busy_rounds (del : Nat → DelOutcome) (n k : Nat) :
    slept (busy_rounds del n k) = n * 500000 := by
  induction n generalizing k with
  | zero => rfl
  | succ n ih => simp [busy_rounds, slept, ih]; omega

theorem rmmod_loop_shape (del : Nat → DelOutcome) (m k : Nat) (ret : Int) :
    ∃ n, n ≤ m ∧ (∀ j, j < n → (del (k + j)).busy = true) ∧
      ((n = m ∧ (rmmod_loop del m k ret).2 = busy_rounds del n k ∧
          (rmmod_loop del m k ret).1 = (if n = 0 then ret else (del (k + n - 1)).ret)) ∨
        (n < m ∧ (del (k + n)).busy = false ∧
          (rmmod_loop del m k ret).2
            = busy_rounds del n k ++ [Event.delete_module (del (k + n)).ret (del (k + n)).errno] ∧
          (rmmod_loop del m k ret).1 = (del (k + n)).ret)) := by
  induction m generalizing k ret with
  | zero => exact ⟨0, le_refl _, by intro j hj; omega, Or.inl ⟨rfl, rfl, rfl⟩⟩
  | succ m ih =>
    by_cases hb : (del k).busy = true
    · obtain ⟨n, hn, hall, hcase⟩ := ih (k + 1) (del k).ret
      have hall2 : ∀ j, j < n + 1 → (del (k + j)).busy = true := by
        intro j hj
        cases j with
        | zero => simpa using hb
        | succ j =>
          have := hall j (by omega)
          rwa [show k + 1 + j = k + (j + 1) by omega] at this
      refine ⟨n + 1, by omega, hall2, ?_⟩
      simp only [rmmod_loop, hb, if_true]
      rcases hcase with ⟨h1, h2, h3⟩ | ⟨h1, h2, h3, h4⟩
      · left
        refine ⟨by omega, by simp [busy_rounds, h2], ?_⟩
        rw [h3]
        cases n with
        | zero => simp
        | succ n => simp [show k + 1 + (n + 1) - 1 = k + (n + 1 + 1) - 1 by omega]
      · right
        rw [show k + 1 + n = k + (n + 1) by omega] at h2 h3 h4
        exact ⟨by omega, h2, by simp [busy_rounds, h3], h4⟩
    · have hb2 : (del k).busy = false := by simpa using hb
      refine ⟨0, by omega, by intro j hj; omega, Or.inr ⟨by omega, by simpa using hb2, ?_, ?_⟩⟩
      · simp [rmmod_loop, hb2, busy_rounds]
      · simp [rmmod_loop, hb2]

/-- C8: `rmmod` makes at most 10 removal attempts; its run is a number `n ≤ 10`
of busy attempts each followed by a sleep of 500 ms, then, when `n < 10`, one
last attempt that is not busy and decides the result; when all attempts report
busy there are exactly 10 attempts, 10 x 500 ms of sleep, a negative result,
and `wifi_unload_driver` returns -1. -/
theorem rmmod_bounded_retry (del : Nat → DelOutcome) :
    attempts (rmmod del).2 ≤ 10 ∧
    (∃ n, n ≤ 10 ∧ (∀ j, j < n → (del j).busy = true) ∧
      ((n = 10 ∧ (rmmod del).2 = busy_rounds del 10 0) ∨
        (n < 10 ∧ (del n).busy = false ∧
          (rmmod del).2 = busy_rounds del n 0 ++ [Event.delete_module (del n).ret (del n).errno] ∧
          (rmmod del).1 = (del n).ret))) ∧
    ((∀ j, j < 10 → (del j).busy = true) →
      attempts (rmmod del).2 = 10 ∧ slept (rmmod del).2 = 10 * 500000 ∧
      (rmmod del).1 < 0 ∧
      ∀ modname loaded, (wifi_unload_driver modname del loaded).1 = -1) := by
  obtain ⟨n, hn, hall, hcase⟩ := rmmod_loop_shape del 10 0 (-1)
  simp only [Nat.zero_add] at hall hcase
  have hshape : (n = 10 ∧ (rmmod del).2 = busy_rounds del 10 0 ∧ (rmmod del).1 = (del 9).ret) ∨
      (n < 10 ∧ (del n).busy = false ∧
        (rmmod del).2 = busy_rounds del n 0 ++ [Event.delete_module (del n).ret (del n).errno] ∧
        (rmmod del).1 = (del n).ret) := by
    rcases hcase with ⟨h1, h2, h3⟩ | h
    · left
      subst h1
      exact ⟨rfl, h2, by simpa using h3⟩
    · right; exact h
  refine ⟨?_, ⟨n, hn, hall, ?_⟩, ?_⟩
  · rcases hshape with ⟨h1, h2, -⟩ | ⟨h1, -, h3, -⟩
    · rw [h2, attempts_busy_rounds]
    · rw [h3, attempts_append, attempts_busy_rounds]
      simp only [attempts]
      omega
  · rcases hshape with ⟨h1, h2, -⟩ | h
    · exact Or.inl ⟨h1, h2⟩
    · exact Or.inr h
  · intro hbusy
    rcases hshape with ⟨h1, h2, h3⟩ | ⟨h1, h2, -, -⟩
    · have h9 := hbusy 9 (by omega)
      have hneg : (rmmod del).1 < 0 := by
        rw [h3]
        simp only [DelOutcome.busy, Bool.and_eq_true, decide_eq_true_eq] at h9
        exact h9.1
      refine ⟨by rw [h2, attempts_busy_rounds], by rw [h2, slept_busy_rounds], hneg, ?_⟩
      intro modname loaded
      unfold wifi_unload_driver
      have hne : ¬ (rmmod del).1 = 0 := by omega
      simp only [property_get_default_ne_zero, if_false, hne]
    · have := hbusy n h1
      rw [h2] at this
      exact absurd this (by simp)

/-- Witness of C8 for a kernel that always reports busy. -/
theorem rmmod_bounded_retry_witness :
    (∀ j, j < 10 → ((fun _ => ⟨-1, EAGAIN⟩ : Nat → DelOutcome) j).busy = true) ∧
    attempts (rmmod fun _ => ⟨-1, EAGAIN⟩).2 = 10 ∧
    slept (rmmod fun _ => ⟨-1, EAGAIN⟩).2 = 10 * 500000 ∧
    (rmmod fun _ => ⟨-1, EAGAIN⟩).1 < 0 ∧
    ∀ modname loaded, (wifi_unload_driver modname (fun _ => ⟨-1, EAGAIN⟩) loaded).1 = -1 :=
  have hbusy : (DelOutcome.mk (-1) EAGAIN).busy = true := by decide
  ⟨fun _ _ => hbusy, (rmmod_bounded_retry fun _ => ⟨-1, EAGAIN⟩).2.2 (fun _ _ => hbusy)⟩

/-! ### Connection handles -/

theorem connect_from_closed (g : Globals) (status : String) (open1 open2 : Option Nat)
    (attach : Int) (hc : g.ctrl_conn = none) (hm : g.monitor_conn = none) :
    (wifi_connect_to_supplicant g status open1 open2 attach).1.paired = true := by
  unfold wifi_connect_to_supplicant
  simp only
  split
  · simp [Globals.paired, hc, hm]
  · split
    · simp [Globals.paired, hm]
    · split
      · simp [Globals.paired]
      · split <;> simp [Globals.paired]

theorem close_paired (g : Globals) : (wifi_close_supplicant_connection g).1.paired = true := by
  simp [wifi_close_supplicant_connection, Globals.paired]

theorem run_paired (calls : List Call) (g : Globals) (hg : g.paired = true)
    (hcalls : connectsWhenClosed g calls = true) : (run g calls).paired = true := by
  induction calls generalizing g with
  | nil => simpa [run] using hg
  | cons c cs ih =>
    cases c with
    | close =>
      simp only [connectsWhenClosed] at hcalls
      simp only [run, List.foldl_cons]
      exact ih _ (close_paired g) hcalls
    | connect status open1 open2 attach =>
      simp only [connectsWhenClosed, Bool.and_eq_true, Option.isNone_iff_eq_none] at hcalls
      simp only [run, List.foldl_cons]
      exact ih _ (connect_from_closed g status open1 open2 attach hcalls.1.1 hcalls.1.2) hcalls.2

/-- C9, amended: from the initial state, after every sequence of connect and
close calls in which connect is only called while no handle is held, and for
every outcome of the status read, the opens and the attach, the command handle
and the monitor handle are both held or both not held. -/
theorem handles_paired (calls : List Call)
    (hcalls : connectsWhenClosed Globals.init calls = true) :
    (run Globals.init calls).ctrl_conn.isSome = (run Globals.init calls).monitor_conn.isSome := by
  have h := run_paired calls Globals.init (by decide) hcalls
  simpa [Globals.paired] using h

/-- Witness of the amended C9 for connect, close, failed connect. -/
theorem handles_paired_witness :
    connectsWhenClosed Globals.init
        [Call.connect "running" (some 1) (some 2) 0, Call.close,
          Call.connect "running" (some 3) none 0] = true ∧
    (run Globals.init
        [Call.connect "running" (some 1) (some 2) 0, Call.close,
          Call.connect "running" (some 3) none 0]).ctrl_conn.isSome
      = (run Globals.init
        [Call.connect "running" (some 1) (some 2) 0, Call.close,
          Call.connect "running" (some 3) none 0]).monitor_conn.isSome :=
  ⟨by decide, handles_paired _ (by decide)⟩

/-- Counterexample to C9 as stated: a second connect whose first open fails
clears the command handle and leaves the monitor handle held. -/
theorem handles_unpaired_after_second_connect :
    (run Globals.init
        [Call.connect "running" (some 1) (some 2) 0,
          Call.connect "running" none none 0]).ctrl_conn = none ∧
    (run Globals.init
        [Call.connect "running" (some 1) (some 2) 0,
          Call.connect "running" none none 0]).monitor_conn = some 2 ∧
    (run Globals.init
        [Call.connect "running" (some 1) (some 2) 0,
          Call.connect "running" none none 0]).ctrl_conn.isSome
      ≠ (run Globals.init
        [Call.connect "running" (some 1) (some 2) 0,
          Call.connect "running" none none 0]).monitor_conn.isSome := by
  decide

/-! ### Supplicant start -/

theorem known_shift (findAt : Nat → Bool) (pi : Bool) (k j : Nat) :
    known findAt (pi || findAt k) (k + 1) j = known findAt pi k (j + 1) := by
  induction j with
  | zero => simp [known]
  | succ j ih =>
    rw [known, ih, known, known]
    rw [show k + 1 + (j + 1) = k + (j + 1 + 1) by omega]
    rfl

theorem reads_running_shift (findAt : Nat → Bool) (readAt : Nat → String × Nat) (pi : Bool)
    (k j : Nat) :
    reads_running findAt readAt (pi || findAt k) (k + 1) j
      = reads_running findAt readAt pi k (j + 1) := by
  simp only [reads_running, known_shift, show k + 1 + j = k + (j + 1) by omega]

theorem reads_stopped_shift (serial : Nat) (findAt : Nat → Bool) (readAt : Nat → String × Nat)
    (pi : Bool) (k j : Nat) :
    reads_stopped serial findAt readAt (pi || findAt k) (k + 1) j
      = reads_stopped serial findAt readAt pi k (j + 1) := by
  simp only [reads_stopped, known_shift, show k + 1 + j = k + (j + 1) by omega]

/-- An inconclusive poll sleeps 100 ms and enters the next iteration. -/
theorem start_wait_step (serial : Nat) (findAt : Nat → Bool) (readAt : Nat → String × Nat)
    (getAt : Nat → String) (c k : Nat) (pi : Bool)
    (h1 : reads_running findAt readAt pi k 0 = false)
    (h2 : reads_stopped serial findAt readAt pi k 0 = false) :
    (start_wait true serial findAt readAt getAt (c + 1) k pi).1
        = (start_wait true serial findAt readAt getAt c (k + 1) (pi || findAt k)).1 ∧
      slept (start_wait true serial findAt readAt getAt (c + 1) k pi).2
        = 100000 + slept (start_wait true serial findAt readAt getAt c (k + 1) (pi || findAt k)).2 := by
  simp only [reads_running, reads_stopped, known, Nat.add_zero] at h1 h2
  simp only [start_wait, if_true]
  by_cases hf : (pi || findAt k) = true
  · simp only [hf, Bool.true_and, decide_eq_false_iff_not, if_true] at h1 h2 ⊢
    rw [if_neg h1]
    have h3 : ¬ ((readAt k).2 ≠ serial ∧ (readAt k).1 = "stopped") := by
      rintro ⟨ha, hb⟩
      simp [ha, hb] at h2
    rw [if_neg h3]
    refine ⟨rfl, ?_⟩
    simp only [slept_append]
    have : slept (if pi = true then []
        else [Event.system_property_find SUPP_PROP_NAME (findAt k)]) = 0 := by
      split <;> rfl
    simp only [this, slept]
    omega
  · rw [if_neg hf]
    refine ⟨rfl, ?_⟩
    simp only [slept_append]
    have : slept (if pi = true then []
        else [Event.system_property_find SUPP_PROP_NAME (findAt k)]) = 0 := by
      split <;> rfl
    simp only [this, slept]
    omega

theorem start_wait_running (serial : Nat) (findAt : Nat → Bool) (readAt : Nat → String × Nat)
    (getAt : Nat → String) (n c k : Nat) (pi : Bool) (hn : n < c)
    (hinc : ∀ j, j < n → reads_running findAt readAt pi k j = false ∧
      reads_stopped serial findAt readAt pi k j = false)
    (hrun : reads_running findAt readAt pi k n = true) :
    (start_wait true serial findAt readAt getAt c k pi).1 = 0 ∧
      slept (start_wait true serial findAt readAt getAt c k pi).2 = n * 100000 := by
  induction n generalizing c k pi with
  | zero =>
    obtain ⟨c, rfl⟩ : ∃ c', c = c' + 1 := ⟨c - 1, by omega⟩
    simp only [reads_running, known, Nat.add_zero, Bool.and_eq_true, decide_eq_true_eq] at hrun
    simp only [start_wait, if_true, hrun.1, hrun.2]
    refine ⟨trivial, ?_⟩
    simp only [slept_append]
    split <;> simp [slept]
  | succ n ih =>
    obtain ⟨c, rfl⟩ : ∃ c', c = c' + 1 := ⟨c - 1, by omega⟩
    obtain ⟨s1, s2⟩ := start_wait_step serial findAt readAt getAt c k pi
      (hinc 0 (by omega)).1 (hinc 0 (by omega)).2
    have := ih c (k + 1) (pi || findAt k) (by omega)
      (fun j hj => by
        rw [reads_running_shift, reads_stopped_shift]
        exact hinc (j + 1) (by omega))
      (by rw [reads_running_shift]; exact hrun)
    rw [s1, s2, this.1, this.2]
    exact ⟨rfl, by omega⟩

theorem start_wait_stopped (serial : Nat) (findAt : Nat → Bool) (readAt : Nat → String × Nat)
    (getAt : Nat → String) (n c k : Nat) (pi : Bool) (hn : n < c)
    (hinc : ∀ j, j < n → reads_running findAt readAt pi k j = false ∧
      reads_stopped serial findAt readAt pi k j = false)
    (hstop : reads_stopped serial findAt readAt pi k n = true) :
    (start_wait true serial findAt readAt getAt c k pi).1 = -1 ∧
      slept (start_wait true serial findAt readAt getAt c k pi).2 = n * 100000 := by
  induction n generalizing c k pi with
  | zero =>
    obtain ⟨c, rfl⟩ : ∃ c', c = c' + 1 := ⟨c - 1, by omega⟩
    simp only [reads_stopped, known, Nat.add_zero, Bool.and_eq_true, decide_eq_true_eq] at hstop
    have hnr : ¬ (readAt k).1 = "running" := by
      rw [hstop.1.2]; decide
    have hs : (readAt k).2 ≠ serial ∧ (readAt k).1 = "stopped" := ⟨hstop.2, hstop.1.2⟩
    simp only [start_wait, if_true, hstop.1.1, if_neg hnr, if_pos hs]
    refine ⟨trivial, ?_⟩
    simp only [slept_append]
    split <;> simp [slept]
  | succ n ih =>
    obtain ⟨c, rfl⟩ : ∃ c', c = c' + 1 := ⟨c - 1, by omega⟩
    obtain ⟨s1, s2⟩ := start_wait_step serial findAt readAt getAt c k pi
      (hinc 0 (by omega)).1 (hinc 0 (by omega)).2
    have := ih c (k + 1) (pi || findAt k) (by omega)
      (fun j hj => by
        rw [reads_running_shift, reads_stopped_shift]
        exact hinc (j + 1) (by omega))
      (by rw [reads_stopped_shift]; exact hstop)
    rw [s1, s2, this.1, this.2]
    exact ⟨rfl, by omega⟩

theorem start_wait_timeout (serial : Nat) (findAt : Nat → Bool) (readAt : Nat → String × Nat)
    (getAt : Nat → String) (c k : Nat) (pi : Bool)
    (hinc : ∀ j, j < c → reads_running findAt readAt pi k j = false ∧
      reads_stopped serial findAt readAt pi k j = false) :
    (start_wait true serial findAt readAt getAt c k pi).1 = -1 ∧
      slept (start_wait true serial findAt readAt getAt c k pi).2 = c * 100000 := by
  induction c generalizing k pi with
  | zero => simp [start_wait, slept]
  | succ c ih =>
    obtain ⟨s1, s2⟩ := start_wait_step serial findAt readAt getAt c k pi
      (hinc 0 (by omega)).1 (hinc 0 (by omega)).2
    have := ih (k + 1) (pi || findAt k)
      (fun j hj => by
        rw [reads_running_shift, reads_stopped_shift]
        exact hinc (j + 1) (by omega))
    rw [s1, s2, this.1, this.2]
    exact ⟨rfl, by omega⟩

theorem status_polls_append (a b : List Event) :
    status_polls (a ++ b) = status_polls a + status_polls b := by
  induction a with
  | nil => simp [status_polls]
  | cons e t ih =>
    cases e with
    | system_property_find key found => cases found <;> simp [status_polls, ih]; omega
    | system_property_read v n => simp [status_polls, ih]; omega
    | _ => simp [status_polls, ih]

theorem start_wait_bounds (serial : Nat) (findAt : Nat → Bool) (readAt : Nat → String × Nat)
    (getAt : Nat → String) (c k : Nat) (pi : Bool) :
    slept (start_wait true serial findAt readAt getAt c k pi).2 ≤ c * 100000 ∧
      status_polls (start_wait true serial findAt readAt getAt c k pi).2 ≤ c := by
  induction c generalizing k pi with
  | zero => simp [start_wait, slept, status_polls]
  | succ c ih =>
    have h := ih (k + 1) (pi || findAt k)
    have e1 : slept (if pi = true then []
        else [Event.system_property_find SUPP_PROP_NAME (findAt k)]) = 0 := by
      split <;> rfl
    simp only [start_wait, if_true]
    by_cases hf : (pi || findAt k) = true
    · have e2 : status_polls (if pi = true then []
          else [Event.system_property_find SUPP_PROP_NAME (findAt k)]) = 0 := by
        cases pi with
        | true => rfl
        | false =>
          have : findAt k = true := by simpa using hf
          simp [this, status_polls]
      rw [if_pos hf]
      split
      · simp only [slept_append, status_polls_append, e1, e2, slept, status_polls]
        omega
      · split
        · simp only [slept_append, status_polls_append, e1, e2, slept, status_polls]
          omega
        · simp only [slept_append, status_polls_append, e1, e2, slept, status_polls]
          omega
    · have e2 : status_polls (if pi = true then []
          else [Event.system_property_find SUPP_PROP_NAME (findAt k)]) = 1 := by
        cases pi with
        | true => simp at hf
        | false =>
          have : findAt k = false := by simpa using hf
          simp [this, status_polls]
      rw [if_neg hf]
      simp only [slept_append, status_polls_append, e1, e2, slept, status_polls]
      omega

/-- C10: when the status does not read "running" at entry and the config file
is provisioned, `wifi_start_supplicant` looks up the serial of the status
property before the start request (0 when the key is missing) and then polls at
most 200 times, sleeping 100 ms after each inconclusive poll: it returns 0 at
the first poll that reads "running", -1 at the first poll that reads "stopped"
with a serial other than the baseline, and -1 after 200 inconclusive polls and
20 s of sleep. -/
theorem start_supplicant_polling (g : Globals) (initial : String) (ensureRet : Int)
    (baseline : Option Nat) (ifaceProp : String) (findAt : Nat → Bool)
    (readAt : Nat → String × Nat) (getAt : Nat → String)
    (hinit : initial ≠ "running") (hcfg : 0 ≤ ensureRet) :
    (∃ cmd w,
      (wifi_start_supplicant true g initial ensureRet baseline ifaceProp findAt readAt getAt).2.2
        = [Event.property_get SUPP_PROP_NAME (property_get initial none).2,
            Event.wpa_ctrl_cleanup,
            Event.system_property_find SUPP_PROP_NAME baseline.isSome,
            Event.property_set "ctl.start" cmd, Event.sched_yield] ++ w ∧
      status_polls w ≤ 200 ∧ slept w ≤ 200 * 100000 ∧
      slept (wifi_start_supplicant true g initial ensureRet baseline ifaceProp findAt readAt
        getAt).2.2 = slept w) ∧
    (∀ n, n < 200 →
      (∀ j, j < n → reads_running findAt readAt baseline.isSome 0 j = false ∧
        reads_stopped (baseline.getD 0) findAt readAt baseline.isSome 0 j = false) →
      (reads_running findAt readAt baseline.isSome 0 n = true →
        (wifi_start_supplicant true g initial ensureRet baseline ifaceProp findAt readAt
          getAt).2.1 = 0 ∧
        slept (wifi_start_supplicant true g initial ensureRet baseline ifaceProp findAt readAt
          getAt).2.2 = n * 100000) ∧
      (reads_stopped (baseline.getD 0) findAt readAt baseline.isSome 0 n = true →
        (wifi_start_supplicant true g initial ensureRet baseline ifaceProp findAt readAt
          getAt).2.1 = -1 ∧
        slept (wifi_start_supplicant true g initial ensureRet baseline ifaceProp findAt readAt
          getAt).2.2 = n * 100000)) ∧
    ((∀ j, j < 200 → reads_running findAt readAt baseline.isSome 0 j = false ∧
        reads_stopped (baseline.getD 0) findAt readAt baseline.isSome 0 j = false) →
      (wifi_start_supplicant true g initial ensureRet baseline ifaceProp findAt readAt
        getAt).2.1 = -1 ∧
      slept (wifi_start_supplicant true g initial ensureRet baseline ifaceProp findAt readAt
        getAt).2.2 = 200 * 100000) := by
  have hnot : ¬ ((property_get initial none).1 ≠ 0 ∧ (property_get initial none).2 = "running") := by
    rintro ⟨h1, h2⟩
    unfold property_get at h1 h2
    split at h2
    · exact hinit h2
    · exact absurd h2 (by decide)
  have hcfg2 : ¬ ensureRet < 0 := by omega
  have hdef : wifi_start_supplicant true g initial ensureRet baseline ifaceProp findAt readAt getAt
      = ({ g with iface := (property_get ifaceProp (some WIFI_TEST_INTERFACE)).2 },
        (start_wait true (baseline.getD 0) findAt readAt getAt 200 0 baseline.isSome).1,
        [Event.property_get SUPP_PROP_NAME (property_get initial none).2,
            Event.wpa_ctrl_cleanup,
            Event.system_property_find SUPP_PROP_NAME baseline.isSome,
            Event.property_set "ctl.start"
              ((SUPPLICANT_NAME ++ ":-i" ++
                (property_get ifaceProp (some WIFI_TEST_INTERFACE)).2).take
                  (PROPERTY_VALUE_MAX - 1)),
            Event.sched_yield] ++
          (start_wait true (baseline.getD 0) findAt readAt getAt 200 0 baseline.isSome).2) := by
    unfold wifi_start_supplicant
    simp only [if_neg hnot, if_neg hcfg2, if_true, Bool.true_and]
    rfl
  have hsl : slept (wifi_start_supplicant true g initial ensureRet baseline ifaceProp findAt
      readAt getAt).2.2
      = slept (start_wait true (baseline.getD 0) findAt readAt getAt 200 0 baseline.isSome).2 := by
    rw [hdef]
    rfl
  have hb := start_wait_bounds (baseline.getD 0) findAt readAt getAt 200 0 baseline.isSome
  refine ⟨⟨_, _, by rw [hdef], hb.2, hb.1, hsl⟩, ?_, ?_⟩
  · intro n hn hinc
    constructor
    · intro hrun
      have := start_wait_running (baseline.getD 0) findAt readAt getAt n 200 0 baseline.isSome
        hn hinc hrun
      rw [hsl]
      rw [hdef]
      exact this
    · intro hstop
      have := start_wait_stopped (baseline.getD 0) findAt readAt getAt n 200 0 baseline.isSome
        hn hinc hstop
      rw [hsl]
      rw [hdef]
      exact this
  · intro hinc
    have := start_wait_timeout (baseline.getD 0) findAt readAt getAt 200 0 baseline.isSome hinc
    rw [hsl]
    rw [hdef]
    exact this

/-- Witness of C10: three polls read "stopped" with the baseline serial, the
fourth reads "running". -/
theorem start_supplicant_polling_witness :
    ("stopped" : String) ≠ "running" ∧ (0 : Int) ≤ 0 ∧
    (wifi_start_supplicant true Globals.init "stopped" 0 (some 7) "wlan0" (fun _ => true)
      (fun k => if k < 3 then ("stopped", 7) else ("running", 9)) (fun _ => "")).2.1 = 0 ∧
    slept (wifi_start_supplicant true Globals.init "stopped" 0 (some 7) "wlan0" (fun _ => true)
      (fun k => if k < 3 then ("stopped", 7) else ("running", 9)) (fun _ => "")).2.2
      = 3 * 100000 :=
  ⟨by decide, by decide,
    ((start_supplicant_polling Globals.init "stopped" 0 (some 7) "wlan0" (fun _ => true)
      (fun k => if k < 3 then ("stopped", 7) else ("running", 9)) (fun _ => "")
      (by decide) (by decide)).2.1 3 (by decide)
      (by intro j hj; interval_cases j <;> decide)).1 (by decide)⟩

/-! ### Config file provisioning -/

theorem strstr_cons (needle : List Nat) (x : Nat) (t : List Nat) :
    strstr needle (x :: t) =
      if needle.isPrefixOf (x :: t) then some (some 0)
      else if x = 0 then some none
      else (strstr needle t).map (Option.map (· + 1)) := rfl

theorem strstr_short (needle l : List Nat) (hl : l.length < needle.length)
    (h0 : 0 ∉ l) : strstr needle l = none := by
  induction l with
  | nil => rfl
  | cons x t ih =>
    have hx : x ≠ 0 := fun h => h0 (by simp [h])
    have ht : 0 ∉ t := fun h => h0 (by simp [h])
    have hnp : needle.isPrefixOf (x :: t) = false := by
      rw [Bool.eq_false_iff]
      intro h
      have := (List.isPrefixOf_iff_prefix.mp h).length_le
      omega
    simp only [strstr, hnp, hx, if_false, Bool.false_eq_true]
    rw [ih (by simp at hl; omega) ht]
    rfl

theorem strstr_append (needle a b : List Nat) (r : Option Nat) (h0 : 0 ∉ needle)
    (h : strstr needle a = some r) : strstr needle (a ++ b) = some r := by
  induction a generalizing r with
  | nil => simp [strstr] at h
  | cons x t ih =>
    rw [List.cons_append, strstr_cons]
    rw [strstr_cons] at h
    by_cases hp : needle.isPrefixOf (x :: t) = true
    · have hp2 : needle.isPrefixOf (x :: (t ++ b)) = true := by
        rw [List.isPrefixOf_iff_prefix] at hp ⊢
        exact hp.trans (List.prefix_append (x :: t) b)
      rw [if_pos hp] at h
      rw [if_pos hp2]
      exact h
    · have hp2 : ¬ needle.isPrefixOf (x :: (t ++ b)) = true := by
        intro hq
        rw [List.isPrefixOf_iff_prefix] at hp hq
        have hpre : x :: t <+: x :: (t ++ b) := List.prefix_append (x :: t) b
        rcases List.prefix_or_prefix_of_prefix hq hpre with h1 | h1
        · exact hp h1
        · have hlen : (x :: t).length < needle.length := by
            rcases Nat.lt_or_ge (x :: t).length needle.length with h2 | h2
            · exact h2
            · exact absurd (h1.eq_of_length_le h2 ▸ List.prefix_refl _) hp
          have hz : 0 ∉ x :: t := fun hm => h0 (h1.subset hm)
          have := strstr_short needle (x :: t) hlen hz
          rw [strstr_cons] at this
          rw [this] at h
          exact absurd h (by simp)
      rw [if_neg hp] at h
      rw [if_neg hp2]
      by_cases hx : x = 0
      · rw [if_pos hx] at h ⊢
        exact h
      · rw [if_neg hx] at h ⊢
        cases hs : strstr needle t with
        | none => rw [hs] at h; simp at h
        | some r2 =>
          rw [hs] at h
          rw [ih r2 hs]
          exact h

/-- A found occurrence splits the buffer: NUL-free bytes, then the needle. -/
theorem strstr_found (needle l : List Nat) (p : Nat) (h : strstr needle l = some (some p)) :
    ∃ rest, l = l.take p ++ needle ++ rest ∧ (l.take p).length = p ∧ 0 ∉ l.take p := by
  induction l generalizing p with
  | nil => simp [strstr] at h
  | cons x t ih =>
    simp only [strstr] at h
    by_cases hp : needle.isPrefixOf (x :: t) = true
    · rw [if_pos hp] at h
      have hp0 : p = 0 := by simpa using h.symm
      subst hp0
      obtain ⟨rest, hrest⟩ := List.isPrefixOf_iff_prefix.mp hp
      exact ⟨rest, by simp [hrest], rfl, by simp⟩
    · rw [if_neg hp] at h
      by_cases hx : x = 0
      · rw [if_pos hx] at h; simp at h
      · rw [if_neg hx] at h
        cases hs : strstr needle t with
        | none => rw [hs] at h; simp at h
        | some r2 =>
          rw [hs] at h
          cases r2 with
          | none => simp at h
          | some q =>
            have hq : p = q + 1 := by simpa using h.symm
            subst hq
            obtain ⟨rest, h1, h2, h3⟩ := ih q hs
            refine ⟨rest, ?_, ?_, ?_⟩
            · simp only [List.take_succ_cons, List.cons_append]
              rw [← h1]
            · simp [h2]
            · simp only [List.take_succ_cons, List.mem_cons, not_or]
              exact ⟨fun h => hx h.symm, h3⟩

/-- The search result only depends on the bytes up to the end of the occurrence. -/
theorem strstr_take (needle l : List Nat) (p : Nat) (hne : needle ≠ [])
    (h : strstr needle l = some (some p)) :
    strstr needle (l.take (p + needle.length)) = some (some p) := by
  induction l generalizing p with
  | nil => simp [strstr] at h
  | cons x t ih =>
    rw [strstr_cons] at h
    by_cases hp : needle.isPrefixOf (x :: t) = true
    · rw [if_pos hp] at h
      have hp0 : p = 0 := by simpa using h.symm
      subst hp0
      have hpre := List.isPrefixOf_iff_prefix.mp hp
      rw [Nat.zero_add, ← List.prefix_iff_eq_take.mp hpre]
      cases needle with
      | nil => exact absurd rfl hne
      | cons y n =>
        rw [strstr_cons, if_pos (List.isPrefixOf_iff_prefix.mpr (List.prefix_refl _))]
    · rw [if_neg hp] at h
      by_cases hx : x = 0
      · rw [if_pos hx] at h; simp at h
      · rw [if_neg hx] at h
        cases hs : strstr needle t with
        | none => rw [hs] at h; simp at h
        | some r2 =>
          rw [hs] at h
          cases r2 with
          | none => simp at h
          | some q =>
            have hq : p = q + 1 := by simpa using h.symm
            subst hq
            rw [show q + 1 + needle.length = (q + needle.length) + 1 by omega,
              List.take_succ_cons, strstr_cons]
            have hp2 : ¬ needle.isPrefixOf (x :: t.take (q + needle.length)) = true := by
              intro hq2
              rw [List.isPrefixOf_iff_prefix] at hp hq2
              exact hp (hq2.trans ((List.prefix_cons_inj x).mpr (List.take_prefix _ t)))
            rw [if_neg hp2, if_neg hx, ih q hs]
            rfl

/-- Two buffers that agree up to the end of the occurrence give the same result. -/
theorem strstr_agree (needle l l2 : List Nat) (p : Nat) (hne : needle ≠ []) (h0 : 0 ∉ needle)
    (h : strstr needle l = some (some p))
    (hagree : l2.take (p + needle.length) = l.take (p + needle.length)) :
    strstr needle l2 = some (some p) := by
  have h1 := strstr_take needle l p hne h
  rw [← hagree] at h1
  have h2 := strstr_append needle _ (l2.drop (p + needle.length)) _ h0 h1
  rwa [List.take_append_drop] at h2

theorem scan_line_stop (op t : List Nat) (room : Nat) (hop : 10 ∉ op)
    (hroom : op.length ≤ room) : scan_line (op ++ 10 :: t) room = op.length := by
  induction op generalizing room with
  | nil =>
    cases room with
    | zero => rfl
    | succ r => simp [scan_line]
  | cons x op ih =>
    have hx : x ≠ 10 := fun h => hop (by simp [h])
    have ht : 10 ∉ op := fun h => hop (by simp [h])
    cases room with
    | zero => simp at hroom
    | succ r =>
      simp only [List.cons_append, scan_line, if_neg hx, List.length_cons]
      exact congrArg (· + 1) (ih r ht (by simpa using hroom))

/-- A literal without newline is a prefix of a line iff it is a prefix of the
text before the newline. -/
theorem prefix_line_iff (lit op t : List Nat) (hlit : 10 ∉ lit) :
    lit <+: op ++ 10 :: t ↔ lit <+: op := by
  constructor
  · intro h
    rcases List.prefix_or_prefix_of_prefix h (List.prefix_append op (10 :: t)) with h1 | h1
    · exact h1
    · rcases Nat.lt_or_ge op.length lit.length with h2 | h2
      · have h3 : op ++ [10] <+: lit := by
          obtain ⟨s, hs⟩ := h1
          obtain ⟨u, hu⟩ := h
          subst hs
          rw [List.append_assoc, List.append_right_inj] at hu
          cases s with
          | nil => simp at h2
          | cons y s =>
            simp only [List.cons_append, List.cons.injEq] at hu
            rw [hu.1]
            exact ⟨s, by simp⟩
        exact absurd (h3.subset (by simp)) hlit
      · rw [h1.eq_of_length_le h2]
  · intro h
    exact h.trans (List.prefix_append op (10 :: t))

theorem ctrl_key_length : CTRL_KEY.length = 15 := by decide

theorem ctrl_key_no_nul : 0 ∉ CTRL_KEY := by decide

theorem ctrl_key_ne_nil : CTRL_KEY ≠ [] := by decide

/-- The rewrite leaves the file alone when the operand starts with "DIR=" or
with the interface name. -/
theorem rewrite_config_keeps (heap ifc content : List Nat) (p : Nat)
    (hs : strstr CTRL_KEY (content ++ heap) = some (some p))
    (hc : strncmp_eq 4 (bytes "DIR=") ((content ++ heap).drop (p + CTRL_KEY.length)) = true ∨
      strncmp_eq ifc.length ifc ((content ++ heap).drop (p + CTRL_KEY.length)) = true) :
    rewrite_config no_faults heap ifc content = some (0, content) := by
  unfold rewrite_config
  have hf : ¬ (no_faults.malloc_fails = true ∨ no_faults.open_config_fails = true ∨
      no_faults.read_config_fails = true) := by decide
  rw [if_neg hf]
  simp only [hs]
  rcases hc with h | h
  · simp [h]
  · simp [h]

/-- The buffer operations of the rewrite, on a buffer split at the operand. -/
theorem rewrite_buffer (P op rest heap ifc : List Nat) (mlen : Nat)
    (hm : ifc.length ≤ mlen) (hfit : mlen ≤ op.length + 1 + heap.length) :
    memcpy (memset (memmove (P ++ (op ++ 10 :: (rest ++ heap))) (P.length + mlen)
        (P.length + op.length + 1) rest.length) P.length 10 mlen) P.length ifc
      = P ++ (ifc ++ (List.replicate (mlen - ifc.length) 10 ++ (rest ++
          (P ++ (op ++ 10 :: (rest ++ heap))).drop (P.length + mlen + rest.length)))) := by
  have hsrc : ((P ++ (op ++ 10 :: (rest ++ heap))).drop (P.length + op.length + 1)).take
      rest.length = rest := by
    have : (P ++ (op ++ 10 :: (rest ++ heap))) = (P ++ op ++ [10]) ++ (rest ++ heap) := by simp
    rw [this, List.drop_left' (by simp; omega), List.take_left]
  have hlen : (P ++ (op ++ 10 :: (rest ++ heap))).length
      = P.length + op.length + 1 + rest.length + heap.length := by
    simp; omega
  have hPt : (P ++ (op ++ 10 :: (rest ++ heap))).take P.length = P := List.take_left _ _
  generalize P ++ (op ++ 10 :: (rest ++ heap)) = pbuf at hsrc hlen hPt ⊢
  have hM : (pbuf.take (P.length + mlen)).length = P.length + mlen :=
    List.length_take_of_le (by omega)
  have hMP : (pbuf.take (P.length + mlen)).take P.length = P := by
    rw [List.take_take, Nat.min_eq_left (by omega), hPt]
  unfold memmove
  rw [hsrc]
  generalize pbuf.take (P.length + mlen) = M at hM hMP
  generalize pbuf.drop (P.length + mlen + rest.length) = T
  have e1 : memset (M ++ rest ++ T) P.length 10 mlen
      = P ++ (List.replicate mlen 10 ++ (rest ++ T)) := by
    unfold memset
    rw [List.append_assoc M, List.take_append_of_le_length (by omega), hMP,
      List.drop_left' hM, List.append_assoc]
  rw [e1]
  unfold memcpy
  rw [List.take_left, List.drop_append, List.drop_append_of_le_length (by simpa using hm),
    List.drop_replicate, List.append_assoc]

theorem write_at_whole (file data : List Nat) (h : file.length ≤ data.length) :
    write_at file 0 data = data := by
  unfold write_at
  rw [List.take_zero, List.nil_append, Nat.zero_add, List.drop_of_length_le h, List.append_nil]

theorem strncmp_dir_iff (op t : List Nat) :
    strncmp_eq 4 (bytes "DIR=") (op ++ 10 :: t) = true ↔ bytes "DIR=" <+: op := by
  rw [strncmp_eq_lit 4 (bytes "DIR=") _ (by decide) (by decide)]
  exact prefix_line_iff (bytes "DIR=") op t (by decide)

theorem strncmp_ifc_iff (ifc op t : List Nat) (h0 : 0 ∉ ifc) (h10 : 10 ∉ ifc) :
    strncmp_eq ifc.length ifc (op ++ 10 :: t) = true ↔ ifc <+: op := by
  rw [strncmp_eq_lit ifc.length ifc _ (le_refl _) h0, List.take_length]
  exact prefix_line_iff ifc op t h10

/-- The rewrite of a directive line `ctrl_interface=op\n`: the file becomes the
bytes up to `=`, the interface name, newlines up to the length of the longer of
the two operands plus one, and the bytes after the old line, cut at the old file
size. -/
theorem rewrite_config_rewrites (A op rest heap ifc : List Nat)
    (hs : strstr CTRL_KEY (A ++ CTRL_KEY ++ (op ++ 10 :: rest)) = some (some A.length))
    (hop : 10 ∉ op) (hifc0 : 0 ∉ ifc) (hifc10 : 10 ∉ ifc)
    (hifcl : ifc.length < PROPERTY_VALUE_MAX) (hheap : heap.length = PROPERTY_VALUE_MAX)
    (hdir : ¬ bytes "DIR=" <+: op) (hpre : ¬ ifc <+: op) :
    ∃ T, rewrite_config no_faults heap ifc (A ++ CTRL_KEY ++ (op ++ 10 :: rest))
      = some (0, ((A ++ CTRL_KEY) ++ (ifc ++
          (List.replicate (max op.length ifc.length + 1 - ifc.length) 10 ++ (rest ++ T)))).take
            (A ++ CTRL_KEY ++ (op ++ 10 :: rest)).length) ∧
      (A ++ CTRL_KEY ++ (op ++ 10 :: rest)).length ≤ ((A ++ CTRL_KEY) ++ (ifc ++
          (List.replicate (max op.length ifc.length + 1 - ifc.length) 10 ++ (rest ++ T)))).length := by
  have hpbuf : A ++ CTRL_KEY ++ (op ++ 10 :: rest) ++ heap
      = (A ++ CTRL_KEY) ++ (op ++ 10 :: (rest ++ heap)) := by simp
  have hs2 := strstr_append CTRL_KEY _ heap _ ctrl_key_no_nul hs
  have hoff : A.length + CTRL_KEY.length = (A ++ CTRL_KEY).length := by simp
  have hnread : (A ++ CTRL_KEY ++ (op ++ 10 :: rest)).length
      = (A ++ CTRL_KEY).length + op.length + 1 + rest.length := by
    simp; omega
  have hip : (A ++ CTRL_KEY ++ (op ++ 10 :: rest) ++ heap).drop (A.length + CTRL_KEY.length)
      = op ++ 10 :: (rest ++ heap) := by
    rw [hpbuf, hoff, List.drop_left]
  have hc1 : strncmp_eq 4 (bytes "DIR=") (op ++ 10 :: (rest ++ heap)) = false := by
    rw [Bool.eq_false_iff, Ne, strncmp_dir_iff]; exact hdir
  have hc2 : strncmp_eq ifc.length ifc (op ++ 10 :: (rest ++ heap)) = false := by
    rw [Bool.eq_false_iff, Ne, strncmp_ifc_iff _ _ _ hifc0 hifc10]; exact hpre
  have hscan : scan_line (op ++ 10 :: (rest ++ heap))
      ((A ++ CTRL_KEY ++ (op ++ 10 :: rest)).length - (A.length + CTRL_KEY.length))
      = op.length := by
    apply scan_line_stop _ _ _ hop
    rw [hnread, hoff]; omega
  have hmax : (if op.length ≥ ifc.length then op.length else ifc.length)
      = max op.length ifc.length := by
    split <;> omega
  have hf : ¬ (no_faults.malloc_fails = true ∨ no_faults.open_config_fails = true ∨
      no_faults.read_config_fails = true) := by decide
  have hf2 : ¬ (no_faults.open_update_fails = true) := by decide
  have hlong : (A ++ CTRL_KEY ++ (op ++ 10 :: rest)).length ≤
      (A ++ CTRL_KEY ++ (ifc ++ (List.replicate (max op.length ifc.length + 1 - ifc.length) 10 ++
        (rest ++ List.drop ((A ++ CTRL_KEY).length + (max op.length ifc.length + 1) + rest.length)
          (A ++ CTRL_KEY ++ (op ++ 10 :: (rest ++ heap))))))).length := by
    simp only [List.length_append, List.length_cons, List.length_replicate, List.length_drop]
    rw [hheap]
    unfold PROPERTY_VALUE_MAX at hifcl ⊢
    omega
  refine ⟨(A ++ CTRL_KEY ++ (op ++ 10 :: (rest ++ heap))).drop
    ((A ++ CTRL_KEY).length + (max op.length ifc.length + 1) + rest.length), ?_, hlong⟩
  unfold rewrite_config
  rw [if_neg hf]
  simp only [hs2, hip, hc1, hc2, hscan, hmax, Bool.not_false, Bool.and_self, if_true]
  have hck : ¬ ((A ++ CTRL_KEY ++ (op ++ 10 :: rest)).length
      < A.length + CTRL_KEY.length + op.length + 1) := by
    rw [hnread, hoff]; omega
  rw [if_neg hck, if_neg hf2]
  have hn : (A ++ CTRL_KEY ++ (op ++ 10 :: rest)).length
      - (A.length + CTRL_KEY.length + op.length + 1) = rest.length := by
    rw [hnread, hoff]; omega
  rw [hn, hpbuf, hoff]
  rw [rewrite_buffer (A ++ CTRL_KEY) op rest heap ifc (max op.length ifc.length + 1)
    (by omega) (by rw [hheap]; omega)]
  rw [write_at_whole _ _ (by rw [List.length_take_of_le hlong])]

theorem takeWhile_first (c : Nat) (pre post : List Nat) (hc : c ∉ pre) :
    (pre ++ c :: post).takeWhile (· ≠ c) = pre := by
  rw [List.takeWhile_append_of_pos]
  · simp
  · intro a ha
    simp only [ne_eq, decide_not, Bool.not_eq_eq_eq_not, Bool.not_true, decide_eq_false_iff_not]
    intro h; subst h; exact hc ha

theorem take_split (P ifc S : List Nat) (n : Nat) (h : P.length + ifc.length ≤ n) :
    (P ++ (ifc ++ S)).take n = P ++ (ifc ++ S.take (n - P.length - ifc.length)) := by
  rw [List.take_append_eq_append_take, List.take_of_length_le (by omega),
    List.take_append_eq_append_take, List.take_of_length_le (by omega)]

/-- A config file whose first directive is found at offset `p` and whose
directive line ends in a newline splits into the bytes before the directive, the
key, the operand, the newline and the rest. -/
theorem config_split (content : List Nat) (p : Nat)
    (hs : strstr CTRL_KEY content = some (some p))
    (hnl : 10 ∈ content.drop (p + 15)) :
    ∃ A op rest, content = A ++ CTRL_KEY ++ (op ++ 10 :: rest) ∧ A.length = p ∧ 10 ∉ op ∧
      (content.drop (p + 15)).takeWhile (· ≠ 10) = op := by
  obtain ⟨B, hB, hlen, -⟩ := strstr_found CTRL_KEY content p hs
  have hdrop : content.drop (p + 15) = B := by
    rw [hB]
    exact List.drop_left' (by simp [hlen, ctrl_key_length])
  rw [hdrop] at hnl ⊢
  obtain ⟨op, rest, hsplit, hop⟩ := List.eq_append_cons_of_mem hnl
  refine ⟨content.take p, op, rest, ?_, hlen, hop, ?_⟩
  · rw [← hsplit]; exact hB
  · rw [hsplit, takeWhile_first 10 op rest hop]

/-- The file left by a rewrite that has room for the interface name: the bytes
up to `=`, the name, and a remainder that starts with a newline when there is
room for one. -/
theorem rewrite_config_result (A op rest heap ifc : List Nat)
    (hs : strstr CTRL_KEY (A ++ CTRL_KEY ++ (op ++ 10 :: rest)) = some (some A.length))
    (hop : 10 ∉ op) (hifc0 : 0 ∉ ifc) (hifc10 : 10 ∉ ifc)
    (hifcl : ifc.length < PROPERTY_VALUE_MAX) (hheap : heap.length = PROPERTY_VALUE_MAX)
    (hdir : ¬ bytes "DIR=" <+: op) (hpre : ¬ ifc <+: op)
    (hroom : (A ++ CTRL_KEY).length + ifc.length ≤ (A ++ CTRL_KEY ++ (op ++ 10 :: rest)).length) :
    ∃ S, rewrite_config no_faults heap ifc (A ++ CTRL_KEY ++ (op ++ 10 :: rest))
        = some (0, (A ++ CTRL_KEY) ++ (ifc ++ S)) ∧
      ((A ++ CTRL_KEY) ++ (ifc ++ S)).length = (A ++ CTRL_KEY ++ (op ++ 10 :: rest)).length ∧
      ((A ++ CTRL_KEY).length + ifc.length < (A ++ CTRL_KEY ++ (op ++ 10 :: rest)).length →
        ∃ S2, S = 10 :: S2) := by
  obtain ⟨T, hT, hlong⟩ := rewrite_config_rewrites A op rest heap ifc hs hop hifc0 hifc10 hifcl
    hheap hdir hpre
  have hlen := List.length_take_of_le hlong
  rw [take_split _ _ _ _ hroom] at hT hlen
  refine ⟨_, hT, hlen, ?_⟩
  intro hlt
  obtain ⟨m, hm⟩ : ∃ m, (A ++ CTRL_KEY ++ (op ++ 10 :: rest)).length - (A ++ CTRL_KEY).length
      - ifc.length = m + 1 := ⟨_, (Nat.succ_pred_eq_of_pos (by omega)).symm⟩
  obtain ⟨k, hk⟩ : ∃ k, max op.length ifc.length + 1 - ifc.length = k + 1 :=
    ⟨_, (Nat.succ_pred_eq_of_pos (by omega)).symm⟩
  rw [hm, hk, List.replicate_succ, List.cons_append, List.take_succ_cons]
  exact ⟨_, rfl⟩

theorem ensure_config_rewrite_branch (heap ifcProp content : List Nat)
    (template : Option (List Nat))
    (hheap : heap.length = PROPERTY_VALUE_MAX) (hprop : ifcProp.length < PROPERTY_VALUE_MAX)
    (hsize : 10 < content.length) :
    ensure_config_file_exists no_faults heap ifcProp ⟨some content, template⟩
      = (rewrite_config no_faults heap (property_get_ifc ifcProp) content).map
          fun r => (r.1, ⟨some r.2, template⟩) := by
  unfold ensure_config_file_exists
  have h1 : ¬ (heap.length ≠ PROPERTY_VALUE_MAX ∨ PROPERTY_VALUE_MAX ≤ ifcProp.length) := by
    omega
  have h2 : ¬ (no_faults.access_denied = true) := by decide
  have h3 : (!no_faults.stat_fails && decide (10 < content.length)) = true := by
    simp [hsize, no_faults]
  simp only [if_neg h1, if_neg h2, h3, if_true]

theorem property_get_ifc_length (ifcProp : List Nat) (h : ifcProp.length < PROPERTY_VALUE_MAX) :
    (property_get_ifc ifcProp).length < PROPERTY_VALUE_MAX := by
  unfold property_get_ifc
  split
  · exact h
  · decide

/-- The rewrite where it reaches the interface name: for a config file of more
than 10 bytes, handled without I/O failure, whose first `ctrl_interface=`
directive has an operand that ends in a newline inside the file, does not start
with "DIR=" and does not start with the interface name, and where the file has
room for the name and a newline at the place of the operand,
`ensure_config_file_exists` returns 0 and leaves a non-empty file of the old
size in which the bytes up to `=` are unchanged and the operand of that
directive is the interface name. -/
theorem config_directive_rewritten (heap ifcProp content : List Nat)
    (template : Option (List Nat)) (p : Nat)
    (hheap : heap.length = PROPERTY_VALUE_MAX) (hprop : ifcProp.length < PROPERTY_VALUE_MAX)
    (hifc0 : 0 ∉ property_get_ifc ifcProp) (hifc10 : 10 ∉ property_get_ifc ifcProp)
    (hsize : 10 < content.length)
    (hs : strstr CTRL_KEY content = some (some p))
    (hnl : 10 ∈ content.drop (p + 15))
    (hdir : ¬ bytes "DIR=" <+: (content.drop (p + 15)).takeWhile (· ≠ 10))
    (hpre : ¬ property_get_ifc ifcProp <+: (content.drop (p + 15)).takeWhile (· ≠ 10))
    (hroom : p + 15 + (property_get_ifc ifcProp).length < content.length) :
    ∃ c1, ensure_config_file_exists no_faults heap ifcProp ⟨some content, template⟩
        = some (0, ⟨some c1, template⟩) ∧
      c1 ≠ [] ∧ c1.length = content.length ∧
      c1.take (p + 15) = content.take (p + 15) ∧
      strstr CTRL_KEY c1 = some (some p) ∧
      10 ∈ c1.drop (p + 15) ∧
      (c1.drop (p + 15)).takeWhile (· ≠ 10) = property_get_ifc ifcProp := by
  obtain ⟨A, op, rest, hc, hA, hop, hopd⟩ := config_split content p hs hnl
  rw [hopd] at hdir hpre
  have hPl : (A ++ CTRL_KEY).length = p + 15 := by simp [hA, ctrl_key_length]
  subst hc
  subst hA
  obtain ⟨S, hS, hlen, hnlS⟩ := rewrite_config_result A op rest heap (property_get_ifc ifcProp)
    hs hop hifc0 hifc10 (property_get_ifc_length ifcProp hprop) hheap hdir hpre
    (by rw [hPl]; omega)
  obtain ⟨S2, rfl⟩ := hnlS (by rw [hPl]; omega)
  refine ⟨_, ?_, ?_, hlen, ?_, ?_, ?_, ?_⟩
  · rw [ensure_config_rewrite_branch _ _ _ _ hheap hprop hsize, hS]
    rfl
  · intro h
    rw [h] at hlen
    simp at hlen
    omega
  · rw [← hPl, List.take_left, List.take_left]
  · apply strstr_agree CTRL_KEY _ _ A.length ctrl_key_ne_nil ctrl_key_no_nul hs
    rw [ctrl_key_length, ← hPl, List.take_left, List.take_left]
  · rw [← hPl, List.drop_left]
    simp
  · rw [← hPl, List.drop_left]
    exact takeWhile_first 10 _ _ hifc10

/-- The rewrite of the operand `wlan1` to the interface name `wlan0`. -/
theorem config_directive_rewritten_witness :
    ∃ c1, ensure_config_file_exists no_faults (List.replicate 92 0) (bytes "wlan0")
        ⟨some (bytes "ctrl_interface=wlan1\nupdate_config=1\n"), none⟩
        = some (0, ⟨some c1, none⟩) ∧
      c1 ≠ [] ∧ c1.length = (bytes "ctrl_interface=wlan1\nupdate_config=1\n").length ∧
      c1.take (0 + 15) = (bytes "ctrl_interface=wlan1\nupdate_config=1\n").take (0 + 15) ∧
      strstr CTRL_KEY c1 = some (some 0) ∧
      10 ∈ c1.drop (0 + 15) ∧
      (c1.drop (0 + 15)).takeWhile (· ≠ 10) = property_get_ifc (bytes "wlan0") :=
  config_directive_rewritten (List.replicate 92 0) (bytes "wlan0")
    (bytes "ctrl_interface=wlan1\nupdate_config=1\n") none 0
    (by decide) (by decide) (by decide) (by decide) (by decide) (by decide) (by decide)
    (by decide) (by decide) (by decide)

/-- The run that decides C7, evaluated: the operand `wlan01` does not start with
"DIR=" and is not equal to the interface name `wlan0`, but it starts with it, so
the function returns 0 and leaves the file, and the operand, as they were. -/
theorem config_directive_kept_on_longer_operand :
    ensure_config_file_exists no_faults (List.replicate 92 0) (bytes "wlan0")
        ⟨some (bytes "ctrl_interface=wlan01\nupdate_config=1\n"), none⟩
      = some (0, ⟨some (bytes "ctrl_interface=wlan01\nupdate_config=1\n"), none⟩) ∧
    strstr CTRL_KEY (bytes "ctrl_interface=wlan01\nupdate_config=1\n") = some (some 0) ∧
    ((bytes "ctrl_interface=wlan01\nupdate_config=1\n").drop 15).takeWhile (· ≠ 10)
      = bytes "wlan01" ∧
    ¬ (bytes "DIR=" <+: bytes "wlan01") ∧
    bytes "wlan01" ≠ property_get_ifc (bytes "wlan0") := by
  decide

theorem rewrite_config_absent (heap ifc content : List Nat)
    (hs : strstr CTRL_KEY (content ++ heap) = some none) :
    rewrite_config no_faults heap ifc content = some (0, content) := by
  unfold rewrite_config
  have hf : ¬ (no_faults.malloc_fails = true ∨ no_faults.open_config_fails = true ∨
      no_faults.read_config_fails = true) := by decide
  rw [if_neg hf]
  simp only [hs]

/-! ### The template copy -/

theorem write_at_write_at (file a b : List Nat) (pos : Nat) (hpos : pos ≤ file.length) :
    write_at (write_at file pos a) (pos + a.length) b = write_at file pos (a ++ b) := by
  unfold write_at
  have hl : (file.take pos ++ a).length = pos + a.length := by
    rw [List.length_append, List.length_take_of_le hpos]
  have h1 : (file.take pos ++ a ++ file.drop (pos + a.length)).take (pos + a.length)
      = file.take pos ++ a := List.take_left' hl
  have h2 : (file.take pos ++ a ++ file.drop (pos + a.length)).drop (pos + a.length + b.length)
      = file.drop (pos + a.length + b.length) := by
    rw [← List.drop_drop, List.drop_left' hl, List.drop_drop]
  rw [h1, h2, List.length_append]
  simp only [List.append_assoc, Nat.add_assoc]

theorem copy_loop_eq (fuel : Nat) (src file : List Nat) (pos : Nat)
    (hfuel : src.length < fuel) (hpos : pos ≤ file.length) :
    copy_loop fuel src file pos = write_at file pos src := by
  induction fuel generalizing src file pos with
  | zero => omega
  | succ fuel ih =>
    unfold copy_loop
    by_cases hc : (src.take 2048).length = 0
    · have hsrc : src = [] := by
        cases src with
        | nil => rfl
        | cons x t => simp at hc
      simp only [hc, if_true]
      subst hsrc
      simp [write_at]
    · simp only [hc, if_false]
      have hlt : (src.drop 2048).length < fuel := by
        have : 0 < src.length := by
          cases src with
          | nil => simp at hc
          | cons x t => simp
        rw [List.length_drop]
        omega
      have hpos2 : pos + (src.take 2048).length ≤ (write_at file pos (src.take 2048)).length := by
        unfold write_at
        simp only [List.length_append, List.length_take_of_le hpos]
        omega
      rw [ih _ _ _ hlt hpos2, write_at_write_at _ _ _ _ hpos, List.take_append_drop]

/-- The copy loop always completes: the target holds the template, followed by
what the old file had beyond the length of the template. -/
theorem copy_template_eq (template old : List Nat) :
    copy_template template old = template ++ old.drop template.length := by
  unfold copy_template
  rw [copy_loop_eq _ _ _ _ (Nat.lt_succ_self _) (Nat.zero_le _)]
  simp [write_at]

/-! ### Files the rewrite branch leaves alone -/

theorem strstr_found_length (content : List Nat) (p : Nat)
    (hs : strstr CTRL_KEY content = some (some p)) : p + 15 ≤ content.length := by
  obtain ⟨rest, h1, h2, -⟩ := strstr_found CTRL_KEY content p hs
  have := congrArg List.length h1
  simp only [List.length_append, h2, ctrl_key_length] at this
  omega

theorem rewrite_config_settled (heap ifc content : List Nat) (hifc0 : 0 ∉ ifc)
    (hset : directive_settled ifc content = true) :
    rewrite_config no_faults heap ifc content = some (0, content) := by
  unfold directive_settled at hset
  cases hs : strstr CTRL_KEY content with
  | none => rw [hs] at hset; exact absurd hset (by simp)
  | some r =>
    cases r with
    | none => exact rewrite_config_absent _ _ _ (strstr_append _ _ _ _ ctrl_key_no_nul hs)
    | some p =>
      rw [hs] at hset
      simp only [Bool.or_eq_true, List.isPrefixOf_iff_prefix] at hset
      have hlen := strstr_found_length content p hs
      apply rewrite_config_keeps _ _ _ p (strstr_append _ _ _ _ ctrl_key_no_nul hs)
      rw [ctrl_key_length, List.drop_append_of_le_length hlen]
      rcases hset with h | h
      · left
        rw [strncmp_eq_lit 4 (bytes "DIR=") _ (by decide) (by decide)]
        exact h.trans (List.prefix_append _ _)
      · right
        rw [strncmp_eq_lit _ _ _ (le_refl _) hifc0, List.take_length]
        exact h.trans (List.prefix_append _ _)

/-- C7: for a config file of more than 10 bytes, handled without I/O failure,
whose first `ctrl_interface=` directive has an operand that starts with the
interface name, `ensure_config_file_exists` returns 0 and leaves the file as it
is; so an operand that is longer than the interface name, and not equal to it,
stays in the file. -/
theorem config_directive_kept (heap ifcProp content : List Nat)
    (template : Option (List Nat)) (p : Nat)
    (hheap : heap.length = PROPERTY_VALUE_MAX) (hprop : ifcProp.length < PROPERTY_VALUE_MAX)
    (hifc0 : 0 ∉ property_get_ifc ifcProp)
    (hsize : 10 < content.length)
    (hs : strstr CTRL_KEY content = some (some p))
    (hpre : property_get_ifc ifcProp <+: (content.drop (p + 15)).takeWhile (· ≠ 10)) :
    ensure_config_file_exists no_faults heap ifcProp ⟨some content, template⟩
      = some (0, ⟨some content, template⟩) := by
  have hset : directive_settled (property_get_ifc ifcProp) content = true := by
    unfold directive_settled
    rw [hs]
    simp only [Bool.or_eq_true, List.isPrefixOf_iff_prefix]
    exact Or.inr (hpre.trans (List.takeWhile_prefix _))
  rw [ensure_config_rewrite_branch _ _ _ _ hheap hprop hsize,
    rewrite_config_settled _ _ _ hifc0 hset]
  rfl

/-- Witness of C7 at the failing input: the directive names `wlan01`, the
interface is `wlan0`; the call returns 0 and the operand is still `wlan01`. -/
theorem config_directive_kept_witness :
    ensure_config_file_exists no_faults (List.replicate 92 0) (bytes "wlan0")
        ⟨some (bytes "ctrl_interface=wlan01\nupdate_config=1\n"), none⟩
      = some (0, ⟨some (bytes "ctrl_interface=wlan01\nupdate_config=1\n"), none⟩) ∧
    ((bytes "ctrl_interface=wlan01\nupdate_config=1\n").drop (0 + 15)).takeWhile (· ≠ 10)
      = bytes "wlan01" ∧
    bytes "wlan01" ≠ property_get_ifc (bytes "wlan0") :=
  ⟨config_directive_kept (List.replicate 92 0) (bytes "wlan0")
      (bytes "ctrl_interface=wlan01\nupdate_config=1\n") none 0
      (by decide) (by decide) (by decide) (by decide) (by decide) (by decide),
    by decide, by decide⟩

/-! ### Two calls in a row -/

/-- A directive that can be rewritten in place is rewritten by the first call
and left alone by the second. -/
theorem rewrite_config_twice (heap1 heap2 ifc content : List Nat) (p : Nat)
    (hheap1 : heap1.length = PROPERTY_VALUE_MAX)
    (hifcl : ifc.length < PROPERTY_VALUE_MAX) (hifc0 : 0 ∉ ifc) (hifc10 : 10 ∉ ifc)
    (hs : strstr CTRL_KEY content = some (some p))
    (hnl : 10 ∈ content.drop (p + 15)) (hroom : p + 15 + ifc.length ≤ content.length) :
    ∃ c1, c1.length = content.length ∧
      rewrite_config no_faults heap1 ifc content = some (0, c1) ∧
      rewrite_config no_faults heap2 ifc c1 = some (0, c1) := by
  obtain ⟨A, op, rest, hc, hA, hop, -⟩ := config_split content p hs hnl
  have hPl : (A ++ CTRL_KEY).length = p + 15 := by simp [hA, ctrl_key_length]
  subst hc
  subst hA
  have hdrop : ∀ heap : List Nat,
      (A ++ CTRL_KEY ++ (op ++ 10 :: rest) ++ heap).drop (A.length + CTRL_KEY.length)
        = op ++ 10 :: (rest ++ heap) := by
    intro heap
    rw [show A ++ CTRL_KEY ++ (op ++ 10 :: rest) ++ heap
      = (A ++ CTRL_KEY) ++ (op ++ 10 :: (rest ++ heap)) by simp]
    exact List.drop_left' (by simp)
  by_cases hkeep : bytes "DIR=" <+: op ∨ ifc <+: op
  · have hk : ∀ heap : List Nat,
        rewrite_config no_faults heap ifc (A ++ CTRL_KEY ++ (op ++ 10 :: rest))
          = some (0, A ++ CTRL_KEY ++ (op ++ 10 :: rest)) := by
      intro heap
      apply rewrite_config_keeps _ _ _ A.length (strstr_append _ _ _ _ ctrl_key_no_nul hs)
      rw [hdrop]
      rcases hkeep with h | h
      · exact Or.inl ((strncmp_dir_iff _ _).mpr h)
      · exact Or.inr ((strncmp_ifc_iff _ _ _ hifc0 hifc10).mpr h)
    exact ⟨A ++ CTRL_KEY ++ (op ++ 10 :: rest), rfl, hk heap1, hk heap2⟩
  · obtain ⟨hdir, hpre⟩ := not_or.mp hkeep
    obtain ⟨S, hS, hlen, -⟩ := rewrite_config_result A op rest heap1 ifc hs hop hifc0 hifc10
      hifcl hheap1 hdir hpre (by rw [hPl]; omega)
    refine ⟨A ++ CTRL_KEY ++ (ifc ++ S), hlen, hS, ?_⟩
    have hs1 : strstr CTRL_KEY (A ++ CTRL_KEY ++ (ifc ++ S)) = some (some A.length) := by
      apply strstr_agree CTRL_KEY _ _ A.length ctrl_key_ne_nil ctrl_key_no_nul hs
      rw [ctrl_key_length, ← hPl, List.take_left, List.take_left]
    apply rewrite_config_keeps _ _ _ A.length (strstr_append _ _ _ _ ctrl_key_no_nul hs1)
    right
    rw [strncmp_eq_lit _ _ _ (le_refl _) hifc0, List.take_length]
    rw [show A ++ CTRL_KEY ++ (ifc ++ S) ++ heap2
      = (A ++ CTRL_KEY) ++ (ifc ++ (S ++ heap2)) by simp]
    rw [List.drop_left' (by simp)]
    exact List.prefix_append _ _

/-- The call on an absent config file, or on one of at most 10 bytes, copies
the template over it. -/
theorem ensure_config_copy_branch (heap ifcProp template : List Nat)
    (config : Option (List Nat))
    (hheap : heap.length = PROPERTY_VALUE_MAX) (hprop : ifcProp.length < PROPERTY_VALUE_MAX)
    (hsize : (config.getD []).length ≤ 10) :
    ensure_config_file_exists no_faults heap ifcProp ⟨config, some template⟩
      = some (0, ⟨some (template ++ (config.getD []).drop template.length), some template⟩) := by
  unfold ensure_config_file_exists
  have h1 : ¬ (heap.length ≠ PROPERTY_VALUE_MAX ∨ PROPERTY_VALUE_MAX ≤ ifcProp.length) := by
    omega
  have h2 : ¬ (no_faults.access_denied = true) := by decide
  have h4 : ¬ (no_faults.open_template_fails = true ∨ no_faults.create_fails = true) := by
    decide
  have h5 : ¬ (no_faults.read_template_fails = true ∨ no_faults.chmod_fails = true ∨
      no_faults.chown_fails = true) := by decide
  cases config with
  | none =>
    simp only [if_neg h1, if_neg h2, provision_config, if_neg h4, if_neg h5, copy_template_eq,
      Option.getD_none]
  | some old =>
    have h3 : (!no_faults.stat_fails && decide (10 < old.length)) = false := by
      have : ¬ 10 < old.length := by simpa using hsize
      simp [this]
    simp only [if_neg h1, if_neg h2, h3, provision_config, if_neg h4, if_neg h5,
      copy_template_eq, Option.getD_some, Bool.false_eq_true, if_false]

/-- C6, amended: two calls in a row without I/O failure both return 0, and the
second call leaves the file as the first call left it, whatever the
uninitialised bytes of the two buffers, for every initial state of the config
file: absent or of at most 10 bytes (`old` is then what it held), provided the
file that the copy of the template leaves has at most 10 bytes or needs no
rewrite; or of more than 10 bytes, provided it needs no rewrite or its directive
can be rewritten in place. -/
theorem ensure_config_idempotent (heap1 heap2 ifcProp template : List Nat)
    (config : Option (List Nat))
    (hheap1 : heap1.length = PROPERTY_VALUE_MAX) (hheap2 : heap2.length = PROPERTY_VALUE_MAX)
    (hprop : ifcProp.length < PROPERTY_VALUE_MAX)
    (hifc0 : 0 ∉ property_get_ifc ifcProp) (hifc10 : 10 ∉ property_get_ifc ifcProp)
    (hcopy : (config.getD []).length ≤ 10 →
      (template ++ (config.getD []).drop template.length).length ≤ 10 ∨
      directive_settled (property_get_ifc ifcProp)
        (template ++ (config.getD []).drop template.length) = true)
    (hrewrite : 10 < (config.getD []).length →
      directive_settled (property_get_ifc ifcProp) (config.getD []) = true ∨
      directive_rewritable (property_get_ifc ifcProp) (config.getD []) = true) :
    ∃ c1, ensure_config_file_exists no_faults heap1 ifcProp ⟨config, some template⟩
        = some (0, ⟨some c1, some template⟩) ∧
      ensure_config_file_exists no_faults heap2 ifcProp ⟨some c1, some template⟩
        = some (0, ⟨some c1, some template⟩) := by
  by_cases hsize : (config.getD []).length ≤ 10
  · refine ⟨template ++ (config.getD []).drop template.length,
      ensure_config_copy_branch heap1 ifcProp template config hheap1 hprop hsize, ?_⟩
    by_cases hsmall : (template ++ (config.getD []).drop template.length).length ≤ 10
    · rw [ensure_config_copy_branch heap2 ifcProp template _ hheap2 hprop
        (by simpa using hsmall)]
      simp only [Option.getD_some, List.drop_left]
    · have hset : directive_settled (property_get_ifc ifcProp)
          (template ++ (config.getD []).drop template.length) = true := by
        rcases hcopy hsize with h | h
        · exact absurd h hsmall
        · exact h
      rw [ensure_config_rewrite_branch _ _ _ _ hheap2 hprop (by omega),
        rewrite_config_settled _ _ _ hifc0 hset]
      rfl
  · have hbig : 10 < (config.getD []).length := by omega
    obtain ⟨content, hcfg⟩ : ∃ content, config = some content := by
      cases config with
      | none => simp at hbig
      | some c => exact ⟨c, rfl⟩
    subst hcfg
    simp only [Option.getD_some] at hbig hrewrite
    by_cases hset : directive_settled (property_get_ifc ifcProp) content = true
    · refine ⟨content, ?_, ?_⟩
      · rw [ensure_config_rewrite_branch _ _ _ _ hheap1 hprop hbig,
          rewrite_config_settled _ _ _ hifc0 hset]
        rfl
      · rw [ensure_config_rewrite_branch _ _ _ _ hheap2 hprop hbig,
          rewrite_config_settled _ _ _ hifc0 hset]
        rfl
    · have hrw : directive_rewritable (property_get_ifc ifcProp) content = true := by
        rcases hrewrite hbig with h | h
        · exact absurd h hset
        · exact h
      unfold directive_rewritable at hrw
      cases hs : strstr CTRL_KEY content with
      | none => rw [hs] at hrw; exact absurd hrw (by simp)
      | some r =>
        cases r with
        | none => rw [hs] at hrw; exact absurd hrw (by simp)
        | some p =>
          rw [hs] at hrw
          simp only [Bool.and_eq_true, decide_eq_true_eq] at hrw
          obtain ⟨c1, hlen, h1, h2⟩ := rewrite_config_twice heap1 heap2
            (property_get_ifc ifcProp) content p hheap1
            (property_get_ifc_length ifcProp hprop) hifc0 hifc10 hs hrw.1 hrw.2
          refine ⟨c1, ?_, ?_⟩
          · rw [ensure_config_rewrite_branch _ _ _ _ hheap1 hprop hbig, h1]
            rfl
          · rw [ensure_config_rewrite_branch _ _ _ _ hheap2 hprop (by rw [hlen]; exact hbig),
              h2]
            rfl

/-- Witness of the amended C6 for an absent config file and a template whose
directive already names the interface `wlan0`. -/
theorem ensure_config_idempotent_witness :
    ∃ c1, ensure_config_file_exists no_faults (List.replicate 92 0) (bytes "wlan0")
        ⟨none, some (bytes "ctrl_interface=wlan0\nupdate_config=1\n")⟩
        = some (0, ⟨some c1, some (bytes "ctrl_interface=wlan0\nupdate_config=1\n")⟩) ∧
      ensure_config_file_exists no_faults (List.replicate 92 7) (bytes "wlan0")
        ⟨some c1, some (bytes "ctrl_interface=wlan0\nupdate_config=1\n")⟩
        = some (0, ⟨some c1, some (bytes "ctrl_interface=wlan0\nupdate_config=1\n")⟩) :=
  ensure_config_idempotent (List.replicate 92 0) (List.replicate 92 7) (bytes "wlan0")
    (bytes "ctrl_interface=wlan0\nupdate_config=1\n") none
    (by decide) (by decide) (by decide) (by decide) (by decide)
    (fun _ => Or.inr (by decide)) (fun h => absurd h (by decide))

/-- The amended C6 on the other two initial states, evaluated: a file of 5
bytes under a template of 3 bytes, and a file of more than 10 bytes whose
directive `wlan1` is rewritten to `wlan0` by the first call. -/
theorem ensure_config_idempotent_runs :
    ensure_config_file_exists no_faults (List.replicate 92 0) (bytes "wlan0")
        ⟨some (bytes "abcde"), some (bytes "xyz")⟩
      = some (0, ⟨some (bytes "xyzde"), some (bytes "xyz")⟩) ∧
    ensure_config_file_exists no_faults (List.replicate 92 0) (bytes "wlan0")
        ⟨some (bytes "xyzde"), some (bytes "xyz")⟩
      = some (0, ⟨some (bytes "xyzde"), some (bytes "xyz")⟩) ∧
    ensure_config_file_exists no_faults (List.replicate 92 0) (bytes "wlan0")
        ⟨some (bytes "ctrl_interface=wlan1\nupdate_config=1\n"), some (bytes "xyz")⟩
      = some (0, ⟨some (bytes "ctrl_interface=wlan0\nupdate_config=1\n"), some (bytes "xyz")⟩) ∧
    ensure_config_file_exists no_faults (List.replicate 92 7) (bytes "wlan0")
        ⟨some (bytes "ctrl_interface=wlan0\nupdate_config=1\n"), some (bytes "xyz")⟩
      = some (0, ⟨some (bytes "ctrl_interface=wlan0\nupdate_config=1\n"),
          some (bytes "xyz")⟩) := by
  decide

/-- Counterexample to C6 as stated: the config file is absent and the template
names `wlan1`; the first call copies the template as it is, the second call
rewrites the directive to `wlan0`. -/
theorem ensure_config_second_call_rewrites :
    ensure_config_file_exists no_faults (List.replicate 92 0) (bytes "wlan0")
        ⟨none, some (bytes "ctrl_interface=wlan1\nupdate_config=1\n")⟩
      = some (0, ⟨some (bytes "ctrl_interface=wlan1\nupdate_config=1\n"),
          some (bytes "ctrl_interface=wlan1\nupdate_config=1\n")⟩) ∧
    ensure_config_file_exists no_faults (List.replicate 92 0) (bytes "wlan0")
        ⟨some (bytes "ctrl_interface=wlan1\nupdate_config=1\n"),
          some (bytes "ctrl_interface=wlan1\nupdate_config=1\n")⟩
      = some (0, ⟨some (bytes "ctrl_interface=wlan0\nupdate_config=1\n"),
          some (bytes "ctrl_interface=wlan1\nupdate_config=1\n")⟩) ∧
    bytes "ctrl_interface=wlan0\nupdate_config=1\n"
      ≠ bytes "ctrl_interface=wlan1\nupdate_config=1\n" := by
  decide

/-! ### What the rewrite persists -/

/-- C11: when `ensure_config_file_exists` rewrites the directive of a config file
made of the bytes `A`, the key, the operand `op`, a newline and the bytes `rest`,
the persisted file is the text `A`, key, interface name, newline padding, `rest`
cut at the old file size. With a name no longer than `op` that is the whole
text, so every byte of `rest` is kept; with a longer name the text is longer
than the file by the difference of the two lengths, and that many bytes at its
end are not persisted. -/
theorem config_rewrite_frame (A op rest heap ifcProp : List Nat)
    (template : Option (List Nat))
    (hheap : heap.length = PROPERTY_VALUE_MAX) (hprop : ifcProp.length < PROPERTY_VALUE_MAX)
    (hifc0 : 0 ∉ property_get_ifc ifcProp) (hifc10 : 10 ∉ property_get_ifc ifcProp)
    (hsize : 10 < (A ++ CTRL_KEY ++ (op ++ 10 :: rest)).length)
    (hs : strstr CTRL_KEY (A ++ CTRL_KEY ++ (op ++ 10 :: rest)) = some (some A.length))
    (hop : 10 ∉ op) (hdir : ¬ bytes "DIR=" <+: op)
    (hpre : ¬ property_get_ifc ifcProp <+: op) :
    ensure_config_file_exists no_faults heap ifcProp
        ⟨some (A ++ CTRL_KEY ++ (op ++ 10 :: rest)), template⟩
      = some (0, ⟨some ((A ++ CTRL_KEY ++ (property_get_ifc ifcProp ++
          (List.replicate
            (max op.length (property_get_ifc ifcProp).length + 1
              - (property_get_ifc ifcProp).length) 10 ++ rest))).take
            (A ++ CTRL_KEY ++ (op ++ 10 :: rest)).length), template⟩) ∧
    ((property_get_ifc ifcProp).length ≤ op.length →
      (A ++ CTRL_KEY ++ (property_get_ifc ifcProp ++
          (List.replicate
            (max op.length (property_get_ifc ifcProp).length + 1
              - (property_get_ifc ifcProp).length) 10 ++ rest))).take
            (A ++ CTRL_KEY ++ (op ++ 10 :: rest)).length
        = A ++ CTRL_KEY ++ (property_get_ifc ifcProp ++
          (List.replicate (op.length + 1 - (property_get_ifc ifcProp).length) 10 ++ rest))) ∧
    (op.length < (property_get_ifc ifcProp).length →
      (A ++ CTRL_KEY ++ (property_get_ifc ifcProp ++
          (List.replicate
            (max op.length (property_get_ifc ifcProp).length + 1
              - (property_get_ifc ifcProp).length) 10 ++ rest))).take
            (A ++ CTRL_KEY ++ (op ++ 10 :: rest)).length
        = (A ++ CTRL_KEY ++ (property_get_ifc ifcProp ++ 10 :: rest)).take
            (A ++ CTRL_KEY ++ (op ++ 10 :: rest)).length ∧
      (A ++ CTRL_KEY ++ (property_get_ifc ifcProp ++ 10 :: rest)).length
        = (A ++ CTRL_KEY ++ (op ++ 10 :: rest)).length
          + ((property_get_ifc ifcProp).length - op.length)) := by
  obtain ⟨T, hT, -⟩ := rewrite_config_rewrites A op rest heap (property_get_ifc ifcProp) hs hop
    hifc0 hifc10 (property_get_ifc_length ifcProp hprop) hheap hdir hpre
  have hmax1 : op.length ≤ max op.length (property_get_ifc ifcProp).length := le_max_left _ _
  have hmax2 : (property_get_ifc ifcProp).length
      ≤ max op.length (property_get_ifc ifcProp).length := le_max_right _ _
  refine ⟨?_, ?_, ?_⟩
  · have hle : (A ++ CTRL_KEY ++ (op ++ 10 :: rest)).length ≤
        (A ++ CTRL_KEY ++ (property_get_ifc ifcProp ++
          (List.replicate
            (max op.length (property_get_ifc ifcProp).length + 1
              - (property_get_ifc ifcProp).length) 10 ++ rest))).length := by
      simp only [List.length_append, List.length_cons, List.length_replicate]
      omega
    rw [ensure_config_rewrite_branch _ _ _ _ hheap hprop hsize, hT]
    rw [show A ++ CTRL_KEY ++ (property_get_ifc ifcProp ++
          (List.replicate
            (max op.length (property_get_ifc ifcProp).length + 1
              - (property_get_ifc ifcProp).length) 10 ++ (rest ++ T)))
        = (A ++ CTRL_KEY ++ (property_get_ifc ifcProp ++
          (List.replicate
            (max op.length (property_get_ifc ifcProp).length + 1
              - (property_get_ifc ifcProp).length) 10 ++ rest))) ++ T by
        simp only [List.append_assoc],
      List.take_append_of_le_length hle]
    rfl
  · intro hle
    rw [Nat.max_eq_left hle]
    apply List.take_of_length_le
    simp only [List.length_append, List.length_cons, List.length_replicate]
    omega
  · intro hlt
    rw [Nat.max_eq_right (Nat.le_of_lt hlt),
      show (property_get_ifc ifcProp).length + 1 - (property_get_ifc ifcProp).length = 1 by omega]
    refine ⟨rfl, ?_⟩
    simp only [List.length_append, List.length_cons]
    omega

/-- Witness of C11 at a name longer than the operand: the operand `w` becomes
`wlan0`, and the last four bytes `g=1` and the newline of the file are not
persisted. -/
theorem config_rewrite_frame_witness :
    ensure_config_file_exists no_faults (List.replicate 92 0) (bytes "wlan0")
        ⟨some (bytes "ctrl_interface=w\nupdate_config=1\n"), none⟩
      = some (0, ⟨some (bytes "ctrl_interface=wlan0\nupdate_confi"), none⟩) ∧
    ¬ (bytes "update_config=1\n" <:+ bytes "ctrl_interface=wlan0\nupdate_confi") :=
  ⟨(config_rewrite_frame [] (bytes "w") (bytes "update_config=1\n") (List.replicate 92 0)
      (bytes "wlan0") none (by decide) (by decide) (by decide) (by decide) (by decide)
      (by decide) (by decide) (by decide) (by decide)).1,
    by decide⟩

/-- The two rewrites that decide C11, evaluated: with the shorter name `w` for
the operand `wlan0` every byte after the old line is persisted behind the
newline padding; with the longer name `wlan0` for the operand `w` the file keeps
its size and loses its last four bytes. -/
theorem config_rewrite_drops_tail :
    ensure_config_file_exists no_faults (List.replicate 92 0) (bytes "eth")
        ⟨some (bytes "ctrl_interface=wlan0\nupdate_config=1\n"), none⟩
      = some (0, ⟨some (bytes "ctrl_interface=eth\n\n\nupdate_config=1\n"), none⟩) ∧
    ensure_config_file_exists no_faults (List.replicate 92 0) (bytes "wlan0")
        ⟨some (bytes "ctrl_interface=w\nupdate_config=1\n"), none⟩
      = some (0, ⟨some (bytes "ctrl_interface=wlan0\nupdate_confi"), none⟩) ∧
    bytes "ctrl_interface=wlan0\nupdate_confi"
      ≠ bytes "ctrl_interface=wlan0\nupdate_config=1\n" := by
  decide

end Wifi
